import Mathlib

/-!
Verification of the debug-info metadata model and traversal engine
(`include/llvm/DebugInfo.h`).

The metadata graph is embedded shallowly: an `MDNode` is a list of slots
(operands), a graph is a list of nodes, and an `MDNode *` is the node's
index.  A null `MDNode *` (an empty `DIDescriptor`) is `Option.none`.
Accessors defined directly in the header (`DIRef<T>::resolve`,
`DIRef<T>::getName`, `DIVariable::getLineNumber`, ...) are translated from
that source.  The bodies of the `DebugInfoFinder` member functions and of
the slot accessors live in `DebugInfo.cpp`, which is not part of this
repository snapshot; those definitions are modelled from the specification
(sections 4.1 to 4.3 and 7 of the design document) and are marked
`Modelled from the spec:` below.
-/

/-- One operand slot of a metadata node: absent (null operand), an integer
constant, an interned string (`MDString`), or a reference to another node
(`MDNode *`, given by its index in the graph). -/
inductive Slot where
  | empty : Slot
  | num : Nat → Slot
  | str : String → Slot
  | node : Nat → Slot
deriving DecidableEq, Repr

/-- A metadata graph: node `i` has operand list `g.get? i`.  Nodes are
immutable and identity is the index, matching `MDNode *` identity. -/
abbrev Graph := List (List Slot)

/-- The `DITypeIdentifierMap`: identifier string to node index.  `MDString`
pointers are interned per context, so string equality models pointer
equality of the keys. -/
abbrev TIMap := List (String × Nat)

/-- Operand `k` of node `n`, if both exist. -/
def getSlot (g : Graph) (n : Nat) (k : Nat) : Option Slot :=
  (g.get? n).bind (fun slots => slots.get? k)

/-- Operand `k` of an optional descriptor (`DIDescriptor` wraps a possibly
null `MDNode *`). -/
def getSlotD (g : Graph) (d : Option Nat) (k : Nat) : Option Slot :=
  match d with
  | none => none
  | some n => getSlot g n k

/-- Modelled from the spec: `DIDescriptor::getUInt64Field` (declared in the
header, body in `DebugInfo.cpp`): the integer constant in slot `k`, or 0
when the node is null, the slot is missing, or the slot has another kind
(malformed input degrades to the default value). -/
def getUInt64Field (g : Graph) (d : Option Nat) (k : Nat) : Nat :=
  match getSlotD g d k with
  | some (Slot.num v) => v
  | _ => 0

/-- Header: `getUnsignedField` casts `getUInt64Field` to a 32-bit
`unsigned`, i.e. truncates modulo 2^32. -/
def getUnsignedField (g : Graph) (d : Option Nat) (k : Nat) : Nat :=
  getUInt64Field g d k % 4294967296

/-- Modelled from the spec: `DIDescriptor::getStringField` returns the
`MDString` contents of slot `k`, or the empty string on a null node, a
missing slot, or a slot of another kind. -/
def getStringField (g : Graph) (d : Option Nat) (k : Nat) : String :=
  match getSlotD g d k with
  | some (Slot.str s) => s
  | _ => ""

/-- Modelled from the spec: `DIDescriptor::getDescriptorField` returns the
node in slot `k`, or a null descriptor on a null node, a missing slot, or a
slot of another kind. -/
def getDescriptorField (g : Graph) (d : Option Nat) (k : Nat) : Option Nat :=
  match getSlotD g d k with
  | some (Slot.node i) => some i
  | _ => none

/-- Header: `getTag` masks the version bits (`~LLVMDebugVersionMask`, the
high 16 bits of the 32-bit field), keeping the low 16 bits of slot 0. -/
def getTag (g : Graph) (d : Option Nat) : Nat :=
  getUnsignedField g d 0 % 65536

/-- Modelled from the spec: `isCompositeType` holds for the DWARF composite
tags (array, class, enumeration, structure, subroutine, union) on a
non-null node. -/
def isCompositeType (g : Graph) (d : Option Nat) : Bool :=
  match d with
  | none => false
  | some _ =>
    getTag g d == 1 || getTag g d == 2 || getTag g d == 4 ||
    getTag g d == 19 || getTag g d == 21 || getTag g d == 23

/-- DWARF tags that make a node a (strictly) derived type: typedef,
pointer, ptr-to-member, reference, const, volatile, restrict, member,
inheritance, friend. -/
def isDerivedOnlyTag (t : Nat) : Bool :=
  t == 22 || t == 15 || t == 31 || t == 16 || t == 38 ||
  t == 53 || t == 55 || t == 13 || t == 28 || t == 42

/-- Modelled from the spec: `isDerivedType` (derived tags or any composite
tag, as composites derive from derived types in this hierarchy). -/
def isDerivedType (g : Graph) (d : Option Nat) : Bool :=
  match d with
  | none => false
  | some _ => isDerivedOnlyTag (getTag g d) || isCompositeType g d

/-- Modelled from the spec: `isBasicType` (base type or unspecified type). -/
def isBasicType (g : Graph) (d : Option Nat) : Bool :=
  match d with
  | none => false
  | some _ => getTag g d == 36 || getTag g d == 59

/-- Modelled from the spec: `isType` is basic, derived or composite. -/
def isType (g : Graph) (d : Option Nat) : Bool :=
  isBasicType g d || isDerivedType g d

/-- Modelled from the spec: `isSubprogram` (DW_TAG_subprogram). -/
def isSubprogram (g : Graph) (d : Option Nat) : Bool :=
  match d with
  | none => false
  | some _ => getTag g d == 46

/-- Modelled from the spec: `isCompileUnit` (DW_TAG_compile_unit). -/
def isCompileUnit (g : Graph) (d : Option Nat) : Bool :=
  match d with
  | none => false
  | some _ => getTag g d == 17

/-- Modelled from the spec: `isNameSpace` (DW_TAG_namespace). -/
def isNameSpace (g : Graph) (d : Option Nat) : Bool :=
  match d with
  | none => false
  | some _ => getTag g d == 57

/-- Modelled from the spec: `isFile` (DW_TAG_file_type). -/
def isFile (g : Graph) (d : Option Nat) : Bool :=
  match d with
  | none => false
  | some _ => getTag g d == 41

/-- Modelled from the spec: `isLexicalBlock` covers a lexical block with or
without a file change (DW_TAG_lexical_block); the spec treats both forms
identically in `processScope`. -/
def isLexicalBlock (g : Graph) (d : Option Nat) : Bool :=
  match d with
  | none => false
  | some _ => getTag g d == 11

/-- Modelled from the spec: `isVariable` (LLVM tags DW_TAG_auto_variable
and DW_TAG_arg_variable). -/
def isVariable (g : Graph) (d : Option Nat) : Bool :=
  match d with
  | none => false
  | some _ => getTag g d == 256 || getTag g d == 257

/-- Modelled from the spec: `isScope` (compile unit, lexical block,
subprogram, namespace, file, or any type, which are all scope kinds). -/
def isScopeKind (g : Graph) (d : Option Nat) : Bool :=
  isCompileUnit g d || isLexicalBlock g d || isSubprogram g d ||
  isNameSpace g d || isFile g d || isType g d

/-- The `Val` of a `DIRef<T>`: null, a direct `MDNode`, or an `MDString`
type identifier (header lines 226 to 228). -/
inductive RefVal where
  | null : RefVal
  | node : Nat → RefVal
  | str : String → RefVal
deriving DecidableEq, Repr

/-- A reference-valued operand: a node gives a direct reference, a string an
identifier-mode reference, anything else the empty reference. -/
def getRefField (g : Graph) (n : Nat) (k : Nat) : RefVal :=
  match getSlot g n k with
  | some (Slot.node i) => RefVal.node i
  | some (Slot.str s) => RefVal.str s
  | _ => RefVal.null

/-- Lookup in the `DITypeIdentifierMap` (`Map.find`). -/
def lookupTIM : TIMap → String → Option Nat
  | [], _ => none
  | (k, v) :: rest, s => if k = s then some v else lookupTIM rest s

/-- Header lines 237 to 252, `DIRef<T>::resolve`: a null reference resolves
to an empty descriptor; a direct node is wrapped with no lookup; an
identifier is looked up in the map.  The two assertions (the identifier
must be in the map, and the mapped node must be a type) are modelled as the
failure result `none`; a successful resolution is `some d`. -/
def DIRef.resolve (g : Graph) (m : TIMap) : RefVal → Option (Option Nat)
  | RefVal.null => some none
  | RefVal.node i => some (some i)
  | RefVal.str s =>
    match lookupTIM m s with
    | none => none
    | some t => if isType g (some t) then some (some t) else none

/-- Header line 290, `DIType::getName`: string slot 3. -/
def DIType.getName (g : Graph) (d : Option Nat) : String :=
  getStringField g d 3

/-- Header lines 254 to 263, `DIRef<T>::getName` (instantiated at
`T = DIType`): the empty string for a null reference, the wrapped node's
own name for a direct reference, and the identifier string itself for an
identifier-mode reference.  No identifier map is consulted. -/
def DIRef.getName (g : Graph) : RefVal → String
  | RefVal.null => ""
  | RefVal.node i => DIType.getName g (some i)
  | RefVal.str s => s

/-- Header line 615, `DIVariable::getLineNumber`: `(getUnsignedField(4) <<
8) >> 8` computed on a 32-bit unsigned. -/
def DIVariable.getLineNumber (g : Graph) (d : Option Nat) : Nat :=
  getUnsignedField g d 4 * 256 % 4294967296 / 256

/-- Header lines 616 to 619, `DIVariable::getArgNumber`: the high 8 bits of
the packed 32-bit slot 4. -/
def DIVariable.getArgNumber (g : Graph) (d : Option Nat) : Nat :=
  getUnsignedField g d 4 / 16777216

/-- Header line 620, `DIVariable::getType`: descriptor slot 5. -/
def DIVariable.getType (g : Graph) (d : Option Nat) : Option Nat :=
  getDescriptorField g d 5

/-- Header line 612, `DIVariable::getContext`: descriptor slot 1. -/
def DIVariable.getContext (g : Graph) (d : Option Nat) : Option Nat :=
  getDescriptorField g d 1

/-- A slot viewed as a `DIDescriptor` (`DIArray::getElement`). -/
def slotToDescriptor : Slot → Option Nat
  | Slot.node i => some i
  | _ => none

/-- The elements of the `DIArray` stored in slot `k` of `d`: the operands
of the array node, each viewed as a descriptor; empty when the slot is
missing or not a node (malformed input degrades to the empty array). -/
def arrayElems (g : Graph) (d : Option Nat) (k : Nat) : List (Option Nat) :=
  match getSlotD g d k with
  | some (Slot.node a) =>
    match g.get? a with
    | some slots => slots.map slotToDescriptor
    | none => []
  | _ => []

/-- Header line 385 with the spec's map construction: the `MDString`
identifier of a composite type (slot 14), if present. -/
def getIdentifier (g : Graph) (d : Option Nat) : Option String :=
  match getSlotD g d 14 with
  | some (Slot.str s) => some s
  | _ => none

/-- The `DebugInfoFinder` state (header lines 826 to 836): the five output
sequences, the shared visited-set `NodesSeen`, the type identifier map and
its initialization flag. -/
structure DebugInfoFinder where
  CUs : List Nat
  SPs : List Nat
  GVs : List Nat
  TYs : List Nat
  Scopes : List Nat
  NodesSeen : List Nat
  TypeIdentifierMap : TIMap
  TypeMapInitialized : Bool
deriving DecidableEq, Repr

/-- The default-constructed Finder: everything empty, map not built. -/
def initFinder : DebugInfoFinder :=
  ⟨[], [], [], [], [], [], [], false⟩

/-- Modelled from the spec: `DebugInfoFinder::reset` clears the five
sequences, the visited-set and the map-built flag (with the map contents),
returning the Finder to its initial state (spec section 4.3). -/
def DebugInfoFinder.reset (_st : DebugInfoFinder) : DebugInfoFinder :=
  initFinder

def DebugInfoFinder.compile_unit_count (st : DebugInfoFinder) : Nat := st.CUs.length
def DebugInfoFinder.subprogram_count (st : DebugInfoFinder) : Nat := st.SPs.length
def DebugInfoFinder.global_variable_count (st : DebugInfoFinder) : Nat := st.GVs.length
def DebugInfoFinder.type_count (st : DebugInfoFinder) : Nat := st.TYs.length
def DebugInfoFinder.scope_count (st : DebugInfoFinder) : Nat := st.Scopes.length

/-- Mark a node visited without adding it to any sequence (used for
lexical blocks, which are traversed but never emitted). -/
def markSeen (st : DebugInfoFinder) (n : Nat) : DebugInfoFinder :=
  { st with NodesSeen := n :: st.NodesSeen }

/-- Modelled from the spec: `addCompileUnit`, dedup via the visited-set. -/
def addCompileUnit (st : DebugInfoFinder) (n : Nat) : DebugInfoFinder :=
  if n ∈ st.NodesSeen then st
  else { st with NodesSeen := n :: st.NodesSeen, CUs := st.CUs ++ [n] }

/-- Modelled from the spec: `addSubprogram`, dedup via the visited-set. -/
def addSubprogram (st : DebugInfoFinder) (n : Nat) : DebugInfoFinder :=
  if n ∈ st.NodesSeen then st
  else { st with NodesSeen := n :: st.NodesSeen, SPs := st.SPs ++ [n] }

/-- Modelled from the spec: `addGlobalVariable`, dedup via the visited-set. -/
def addGlobalVariable (st : DebugInfoFinder) (n : Nat) : DebugInfoFinder :=
  if n ∈ st.NodesSeen then st
  else { st with NodesSeen := n :: st.NodesSeen, GVs := st.GVs ++ [n] }

/-- Modelled from the spec: `addType`, dedup via the visited-set. -/
def addType (st : DebugInfoFinder) (n : Nat) : DebugInfoFinder :=
  if n ∈ st.NodesSeen then st
  else { st with NodesSeen := n :: st.NodesSeen, TYs := st.TYs ++ [n] }

/-- Modelled from the spec: `addScope`, dedup via the visited-set. -/
def addScope (st : DebugInfoFinder) (n : Nat) : DebugInfoFinder :=
  if n ∈ st.NodesSeen then st
  else { st with NodesSeen := n :: st.NodesSeen, Scopes := st.Scopes ++ [n] }

/-- The three mutually recursive internal operations of the Finder, as one
call tag. -/
inductive PCall where
  | ptype : Option Nat → PCall
  | pscope : Option Nat → PCall
  | psub : Option Nat → PCall
deriving DecidableEq, Repr

/-- State-passing fold of a fallible step over a descriptor list. -/
def foldProc (h : DebugInfoFinder → Option Nat → Option DebugInfoFinder) :
    DebugInfoFinder → List (Option Nat) → Option DebugInfoFinder
  | st, [] => some st
  | st, d :: rest =>
    match h st d with
    | none => none
    | some st' => foldProc h st' rest

/-- Modelled from the spec (section 4.3): the recursive core of the
Finder.  Every operation checks the visited-set first and returns
immediately on a null or already-visited argument; otherwise it marks the
node visited (pre-order) before recursing.  `fuel` bounds the recursion
depth; it only decreases on a genuinely new node, so `graph size + 1` is
always sufficient (proved below), which is the spec's termination
guarantee.  A `none` result is a run that exhausted its fuel or hit the
fatal unresolvable-identifier assertion inside `DIRef.resolve`.

The cases are:
`ptype` (processType): return on empty or visited; `addType`; if composite,
recurse on the resolved derived-from type and on every member-array element
that is itself a type; if derived, recurse on the resolved derived-from
type; in all cases recurse `pscope` on the type's declaring context.
`pscope` (processScope): return on null; a lexical block is never added,
instead the enclosing-scope chain (slot 2) is followed; any other scope is
dedup-added via `addScope`.
`psub` (processSubprogram): return on empty or visited; `addSubprogram`;
`pscope` on the resolved context; `ptype` on the signature type (slot 7);
for each variable in the variable list (slot 18), `ptype` its type (slot 5)
and `pscope` its context (slot 1). -/
def processF (g : Graph) : Nat → DebugInfoFinder → PCall → Option DebugInfoFinder
  | fuel, st, c =>
    match c with
    | PCall.ptype none => some st
    | PCall.ptype (some n) =>
      if n ∈ st.NodesSeen then some st
      else
        match fuel with
        | 0 => none
        | f + 1 =>
          (DIRef.resolve g st.TypeIdentifierMap (getRefField g n 2)).bind (fun ctx =>
            (if isCompositeType g (some n) then
              (DIRef.resolve g st.TypeIdentifierMap (getRefField g n 9)).bind (fun der =>
                (processF g f (addType st n) (PCall.ptype der)).bind (fun st2 =>
                  foldProc
                    (fun s d => if isType g d then processF g f s (PCall.ptype d) else some s)
                    st2 (arrayElems g (some n) 10)))
            else if isDerivedType g (some n) then
              (DIRef.resolve g st.TypeIdentifierMap (getRefField g n 9)).bind (fun der =>
                processF g f (addType st n) (PCall.ptype der))
            else
              some (addType st n)).bind (fun stm =>
              processF g f stm (PCall.pscope ctx)))
    | PCall.pscope none => some st
    | PCall.pscope (some n) =>
      if n ∈ st.NodesSeen then some st
      else if isLexicalBlock g (some n) then
        match fuel with
        | 0 => none
        | f + 1 =>
          processF g f (markSeen st n) (PCall.pscope (getDescriptorField g (some n) 2))
      else some (addScope st n)
    | PCall.psub none => some st
    | PCall.psub (some n) =>
      if n ∈ st.NodesSeen then some st
      else
        match fuel with
        | 0 => none
        | f + 1 =>
          (DIRef.resolve g st.TypeIdentifierMap (getRefField g n 2)).bind (fun ctx =>
            (processF g f (addSubprogram st n) (PCall.pscope ctx)).bind (fun st2 =>
              (processF g f st2 (PCall.ptype (getDescriptorField g (some n) 7))).bind (fun st3 =>
                foldProc
                  (fun s v =>
                    (processF g f s (PCall.ptype (getDescriptorField g v 5))).bind (fun s2 =>
                      processF g f s2 (PCall.pscope (getDescriptorField g v 1))))
                  st3 (arrayElems g (some n) 18))))

/-- The Finder's `processType` entry (spec section 4.3). -/
def processTypeF (g : Graph) (f : Nat) (st : DebugInfoFinder) (t : Option Nat) :
    Option DebugInfoFinder :=
  processF g f st (PCall.ptype t)

/-- The Finder's `processScope` entry (spec section 4.3). -/
def processScopeF (g : Graph) (f : Nat) (st : DebugInfoFinder) (s : Option Nat) :
    Option DebugInfoFinder :=
  processF g f st (PCall.pscope s)

/-- The Finder's `processSubprogram` entry (spec section 4.3). -/
def processSubprogramF (g : Graph) (f : Nat) (st : DebugInfoFinder) (s : Option Nat) :
    Option DebugInfoFinder :=
  processF g f st (PCall.psub s)

/-- Modelled from the spec (section 4.2): register one retained-type entry
in the identifier map: only composite types with a non-empty identifier,
first registration wins (the spec leaves the duplicate policy open; this
model picks and documents first-wins). -/
def registerRetained (g : Graph) (acc : TIMap) (d : Option Nat) : TIMap :=
  match d with
  | none => acc
  | some t =>
    if isCompositeType g (some t) then
      match getIdentifier g (some t) with
      | some s =>
        if s = "" then acc
        else if (lookupTIM acc s).isSome then acc
        else acc ++ [(s, t)]
      | none => acc
    else acc

/-- Modelled from the spec (section 4.2): build the identifier map by one
linear pass over every compile unit's retained-type list (slot 8). -/
def buildTypeIdentifierMap (g : Graph) (M : List Nat) : TIMap :=
  M.foldl (fun acc cu => (arrayElems g (some cu) 8).foldl (registerRetained g) acc) []

/-- Modelled from the spec (section 4.3): the per-compile-unit part of
`processModule`: `addCompileUnit`; then each subprogram (slot 9), each
global variable (slot 10, `addGlobalVariable` then `processType` on its
declared type, slot 8 of the variable), each retained type (slot 8), and
each imported entity (slot 11; its context scope, slot 1, then its entity,
slot 2, processed as a type or as a scope). -/
def processCUF (g : Graph) (f : Nat) (st : DebugInfoFinder) (cu : Nat) :
    Option DebugInfoFinder :=
  match foldProc (fun s d => processF g f s (PCall.psub d))
      (addCompileUnit st cu) (arrayElems g (some cu) 9) with
  | none => none
  | some st2 =>
    match foldProc
        (fun s d =>
          processF g f (match d with | none => s | some m => addGlobalVariable s m)
            (PCall.ptype (getDescriptorField g d 8)))
        st2 (arrayElems g (some cu) 10) with
    | none => none
    | some st3 =>
      match foldProc (fun s d => processF g f s (PCall.ptype d))
          st3 (arrayElems g (some cu) 8) with
      | none => none
      | some st4 =>
        foldProc
          (fun s d =>
            match processF g f s (PCall.pscope (getDescriptorField g d 1)) with
            | none => none
            | some s2 =>
              if isType g (getDescriptorField g d 2) then
                processF g f s2 (PCall.ptype (getDescriptorField g d 2))
              else if isScopeKind g (getDescriptorField g d 2) then
                processF g f s2 (PCall.pscope (getDescriptorField g d 2))
              else some s2)
          st4 (arrayElems g (some cu) 11)

/-- The fold of `processCUF` over the declared compile-unit list. -/
def processModuleGo (g : Graph) (f : Nat) :
    DebugInfoFinder → List Nat → Option DebugInfoFinder
  | st, [] => some st
  | st, cu :: rest =>
    match processCUF g f st cu with
    | none => none
    | some st' => processModuleGo g f st' rest

/-- Modelled from the spec (section 4.3): `DebugInfoFinder::processModule`.
If the identifier map has not been built, build it from the program's
compile-unit list; then process each declared compile unit in order.  The
fuel `g.length + 1` strictly exceeds the number of distinct nodes, which is
sufficient for every call (proved below). -/
def DebugInfoFinder.processModule (g : Graph) (M : List Nat) (st : DebugInfoFinder) :
    Option DebugInfoFinder :=
  processModuleGo g (g.length + 1)
    (if st.TypeMapInitialized then st
     else { st with TypeIdentifierMap := buildTypeIdentifierMap g M,
                    TypeMapInitialized := true })
    M

/-- Modelled from the spec (sections 4.3 and 7): `processDeclare` extracts
the attached variable descriptor; a missing or wrong-tag attachment is
treated as absent; otherwise the variable is marked visited and its
declared type and context are processed. -/
def processDeclareF (g : Graph) (f : Nat) (st : DebugInfoFinder) (var : Option Nat) :
    Option DebugInfoFinder :=
  match var with
  | none => some st
  | some v =>
    if isVariable g (some v) = false then some st
    else if v ∈ st.NodesSeen then some st
    else
      match processF g f (markSeen st v) (PCall.ptype (DIVariable.getType g (some v))) with
      | none => none
      | some st2 => processF g f st2 (PCall.pscope (DIVariable.getContext g (some v)))

/-- Modelled from the spec (section 4.3): `processValue` handles its
variable attachment exactly like `processDeclare`. -/
def processValueF (g : Graph) (f : Nat) (st : DebugInfoFinder) (var : Option Nat) :
    Option DebugInfoFinder :=
  processDeclareF g f st var

/-- The declared compile-unit list with duplicates removed at first
occurrence (the order the specification claims for the CU sequence). -/
def dedupFirstAux : List Nat → List Nat → List Nat
  | _, [] => []
  | seen, a :: rest =>
    if a ∈ seen then dedupFirstAux seen rest
    else a :: dedupFirstAux (a :: seen) rest

/-- First-occurrence deduplication of a list. -/
def dedupFirst (l : List Nat) : List Nat :=
  dedupFirstAux [] l

/-- One step of the type reference graph: `b` is an element of `a`'s member
array (slot 10) or `a`'s direct derived-from type (slot 9). -/
def typeStep (g : Graph) (a b : Nat) : Prop :=
  some b ∈ arrayElems g (some a) 10 ∨ getDescriptorField g (some a) 9 = some b

/-- A self-referential composite type: a composite node with a member
chain (through member arrays and derived-from links) that reaches the
node itself. -/
def SelfRefComposite (g : Graph) (n : Nat) : Prop :=
  isCompositeType g (some n) = true ∧ Relation.TransGen (typeStep g) n n

/-- The number of graph nodes not yet in the visited-set `s`. -/
def unvisitedL (g : Graph) (s : List Nat) : Nat :=
  ((List.range g.length).filter (fun i => decide (i ∉ s))).length

/-- The number of graph nodes the Finder has not yet visited. -/
def unvisited (g : Graph) (st : DebugInfoFinder) : Nat :=
  unvisitedL g st.NodesSeen

/-- Every identifier-mode reference in a context or derived-from slot
resolves through `m` (to a type node): the spec's section 7 invariant that
the map was built completely for the graph being walked.  Restricted to the
reference slots the traversal actually resolves. -/
def IdentsOK (g : Graph) (m : TIMap) : Prop :=
  ∀ i, i < g.length →
    (DIRef.resolve g m (getRefField g i 2)).isSome = true ∧
    (DIRef.resolve g m (getRefField g i 9)).isSome = true

instance (g : Graph) (m : TIMap) : Decidable (IdentsOK g m) := by
  unfold IdentsOK; infer_instance

/-- The node `n` is first reached by the traversal as a type: it is not a
declared compile unit, not listed in any compile unit's subprogram or
global-variable array, and never the target of a context slot (slot 2,
direct or resolved through the map built for `M`) or of a slot-1 context
field of any node. -/
def NoPreempt (g : Graph) (M : List Nat) (n : Nat) : Prop :=
  n ∉ M ∧
  (∀ cu ∈ M, some n ∉ arrayElems g (some cu) 9) ∧
  (∀ cu ∈ M, some n ∉ arrayElems g (some cu) 10) ∧
  (∀ m, m < g.length →
    DIRef.resolve g (buildTypeIdentifierMap g M) (getRefField g m 2) ≠ some (some n) ∧
    getDescriptorField g (some m) 2 ≠ some n ∧
    getDescriptorField g (some m) 1 ≠ some n)

instance (g : Graph) (M : List Nat) (n : Nat) : Decidable (NoPreempt g M n) := by
  unfold NoPreempt; infer_instance

/-- A concrete module with a self-referential composite: compile unit 0
retains (through array node 1) the struct 2, whose member array (node 3)
holds the pointer type 4, whose derived-from slot points back to struct 2. -/
def cyclicGraph : Graph :=
  [ [Slot.num 17, Slot.num 0, Slot.num 0, Slot.num 0, Slot.num 0, Slot.num 0,
     Slot.num 0, Slot.num 0, Slot.node 1],
    [Slot.node 2],
    [Slot.num 19, Slot.num 0, Slot.empty, Slot.str "S", Slot.num 0, Slot.num 0,
     Slot.num 0, Slot.num 0, Slot.num 0, Slot.empty, Slot.node 3],
    [Slot.node 4],
    [Slot.num 15, Slot.num 0, Slot.empty, Slot.num 0, Slot.num 0, Slot.num 0,
     Slot.num 0, Slot.num 0, Slot.num 0, Slot.node 2] ]

/-- The declared compile-unit list of `cyclicGraph`. -/
def cyclicModule : List Nat := [0]

/-- A module whose second declared compile unit (node 1) is first reached
as the context scope of a subprogram of the first compile unit: node 0 is a
compile unit whose subprogram array (node 2) holds subprogram 3, whose
context is compile unit 1. -/
def preemptGraph : Graph :=
  [ [Slot.num 17, Slot.num 0, Slot.num 0, Slot.num 0, Slot.num 0, Slot.num 0,
     Slot.num 0, Slot.num 0, Slot.num 0, Slot.node 2],
    [Slot.num 17],
    [Slot.node 3],
    [Slot.num 46, Slot.num 0, Slot.node 1] ]

/-- The declared compile-unit list of `preemptGraph`. -/
def preemptModule : List Nat := [0, 1]

/-- The Finder state after `processModule preemptGraph preemptModule`. -/
def preemptResult : DebugInfoFinder :=
  ⟨[0], [3], [], [], [1], [1, 3, 0], [], true⟩

/-- A module with a lexical-block chain: compile unit 0 lists (through
array node 1) subprogram 2, whose context is lexical block 3, whose
enclosing scope is namespace 4. -/
def lexGraph : Graph :=
  [ [Slot.num 17, Slot.num 0, Slot.num 0, Slot.num 0, Slot.num 0, Slot.num 0,
     Slot.num 0, Slot.num 0, Slot.num 0, Slot.node 1],
    [Slot.node 2],
    [Slot.num 46, Slot.num 0, Slot.node 3],
    [Slot.num 11, Slot.num 0, Slot.node 4],
    [Slot.num 57] ]

/-- The declared compile-unit list of `lexGraph`. -/
def lexModule : List Nat := [0]

/-- The Finder state after `processModule lexGraph lexModule`. -/
def lexResult : DebugInfoFinder :=
  ⟨[0], [2], [], [], [4], [4, 3, 2, 0], [], true⟩

/-- A one-node graph whose node 0 is not a type (tag 0), with a map that
binds the identifier to it. -/
def nonTypeGraph : Graph := [[Slot.num 0]]

/-- A map binding identifier to the non-type node 0. -/
def nonTypeMap : TIMap := [("T", 0)]

/-- A one-node graph whose node 0 packs line 10 and argument number 1 into
slot 4 (value 1 * 2^24 + 10). -/
def varGraph : Graph :=
  [[Slot.num 0, Slot.num 0, Slot.num 0, Slot.num 0, Slot.num 16777226]]

/-- The Finder state after processing the empty module from the initial
state: only the map-built flag is set. -/
def emptyRunResult : DebugInfoFinder :=
  ⟨[], [], [], [], [], [], [], true⟩

/-- The target node `n` is only ever visited as a type: whenever it is in
the visited-set, it is in the type sequence. -/
def InvN (n : Nat) (st : DebugInfoFinder) : Prop :=
  n ∈ st.NodesSeen → n ∈ st.TYs

/-- Call arguments that cannot be the target node `n` other than through
`processType`. -/
def argOKN (n : Nat) : PCall → Prop
  | PCall.ptype _ => True
  | PCall.pscope s => s ≠ some n
  | PCall.psub s => s ≠ some n

/-- The optional descriptor, when present, is already in the visited-set. -/
def dHandled (st : DebugInfoFinder) (d : Option Nat) : Prop :=
  ∀ m, d = some m → m ∈ st.NodesSeen

/-- After one pass over a compile unit, every root the driver touches for
it is already visited, so a second pass is a no-op. -/
def CUdone (g : Graph) (st : DebugInfoFinder) (cu : Nat) : Prop :=
  cu ∈ st.NodesSeen ∧
  (∀ d ∈ arrayElems g (some cu) 9, dHandled st d) ∧
  (∀ d ∈ arrayElems g (some cu) 10,
    dHandled st d ∧ dHandled st (getDescriptorField g d 8)) ∧
  (∀ d ∈ arrayElems g (some cu) 8, dHandled st d) ∧
  (∀ d ∈ arrayElems g (some cu) 11,
    dHandled st (getDescriptorField g d 1) ∧
    ((isType g (getDescriptorField g d 2) = true ∨
      isScopeKind g (getDescriptorField g d 2) = true) →
      dHandled st (getDescriptorField g d 2)))

/-- The parts of the Finder state a call into the recursive family can
never change (compile units, global variables, identifier map, flag),
together with growth of what it can extend. -/
def FamGood (st st' : DebugInfoFinder) : Prop :=
  st'.CUs = st.CUs ∧ st'.GVs = st.GVs ∧
  List.Sublist st.SPs st'.SPs ∧ List.Sublist st.TYs st'.TYs ∧
  List.Sublist st.Scopes st'.Scopes ∧
  st.NodesSeen ⊆ st'.NodesSeen ∧
  st'.TypeIdentifierMap = st.TypeIdentifierMap ∧
  st'.TypeMapInitialized = st.TypeMapInitialized

/-- A sequence is well formed when it is duplicate free and every entry is
in the visited-set. -/
def SeqOK (seen l : List Nat) : Prop :=
  l.Nodup ∧ l ⊆ seen

/-- Well-formedness of a Finder state: all five sequences are duplicate
free and covered by the visited-set, and the scope sequence holds no
lexical blocks. -/
def WFst (g : Graph) (st : DebugInfoFinder) : Prop :=
  SeqOK st.NodesSeen st.CUs ∧ SeqOK st.NodesSeen st.SPs ∧
  SeqOK st.NodesSeen st.GVs ∧ SeqOK st.NodesSeen st.TYs ∧
  SeqOK st.NodesSeen st.Scopes ∧
  ∀ x ∈ st.Scopes, isLexicalBlock g (some x) = false

/-- A single family step: the untouchable parts are preserved and
well-formedness is carried along. -/
def GoodStep (g : Graph) (st st' : DebugInfoFinder) : Prop :=
  FamGood st st' ∧ (WFst g st → WFst g st')

/-- What a driver step (which may also extend CUs and GVs) preserves. -/
def DrvGood (st st' : DebugInfoFinder) : Prop :=
  List.Sublist st.CUs st'.CUs ∧ List.Sublist st.GVs st'.GVs ∧
  List.Sublist st.SPs st'.SPs ∧ List.Sublist st.TYs st'.TYs ∧
  List.Sublist st.Scopes st'.Scopes ∧
  st.NodesSeen ⊆ st'.NodesSeen ∧
  st'.TypeIdentifierMap = st.TypeIdentifierMap ∧
  st'.TypeMapInitialized = st.TypeMapInitialized

/-- A driver step with well-formedness carried along. -/
def DrvStep (g : Graph) (st st' : DebugInfoFinder) : Prop :=
  DrvGood st st' ∧ (WFst g st → WFst g st')

theorem GoodStep.refl (g : Graph) (st : DebugInfoFinder) : GoodStep g st st :=
  ⟨⟨rfl, rfl, List.Sublist.refl _, List.Sublist.refl _, List.Sublist.refl _,
    fun _ hx => hx, rfl, rfl⟩, id⟩

theorem GoodStep.trans {g : Graph} {s1 s2 s3 : DebugInfoFinder}
    (h1 : GoodStep g s1 s2) (h2 : GoodStep g s2 s3) : GoodStep g s1 s3 := by
  obtain ⟨⟨a1, b1, c1, d1, e1, f1, m1, t1⟩, w1⟩ := h1
  obtain ⟨⟨a2, b2, c2, d2, e2, f2, m2, t2⟩, w2⟩ := h2
  exact ⟨⟨a2.trans a1, b2.trans b1, c1.trans c2, d1.trans d2, e1.trans e2,
    fun _x hx => f2 (f1 hx), m2.trans m1, t2.trans t1⟩, fun hw => w2 (w1 hw)⟩

theorem seqOK_mono {seen seen' l : List Nat} (h : SeqOK seen l) (hs : seen ⊆ seen') :
    SeqOK seen' l :=
  ⟨h.1, fun _x hx => hs (h.2 hx)⟩

theorem seqOK_cons_other {seen l : List Nat} {n : Nat} (h : SeqOK seen l) :
    SeqOK (n :: seen) l :=
  seqOK_mono h (List.subset_cons_self n seen)

theorem seqOK_append_new {seen l : List Nat} {n : Nat} (h : SeqOK seen l)
    (hn : n ∉ seen) : SeqOK (n :: seen) (l ++ [n]) := by
  refine ⟨?_, ?_⟩
  · simp only [List.nodup_append, List.nodup_cons, List.nodup_nil, List.disjoint_singleton]
    exact ⟨h.1, by simp, fun hmem => hn (h.2 hmem)⟩
  · intro x hx
    rcases List.mem_append.mp hx with hx | hx
    · exact List.mem_cons_of_mem _ (h.2 hx)
    · simp only [List.mem_singleton] at hx
      simp [hx]

theorem markSeen_good (g : Graph) (st : DebugInfoFinder) (n : Nat) :
    GoodStep g st (markSeen st n) := by
  refine ⟨⟨rfl, rfl, List.Sublist.refl _, List.Sublist.refl _, List.Sublist.refl _,
    List.subset_cons_self n _, rfl, rfl⟩, ?_⟩
  rintro ⟨h1, h2, h3, h4, h5, h6⟩
  exact ⟨seqOK_cons_other h1, seqOK_cons_other h2, seqOK_cons_other h3,
    seqOK_cons_other h4, seqOK_cons_other h5, h6⟩

theorem addType_good (g : Graph) (st : DebugInfoFinder) (n : Nat) :
    GoodStep g st (addType st n) := by
  unfold addType
  by_cases hn : n ∈ st.NodesSeen
  · simp only [hn, if_true]
    exact GoodStep.refl g st
  · simp only [hn, if_false]
    refine ⟨⟨rfl, rfl, List.Sublist.refl _, List.sublist_append_left _ _,
      List.Sublist.refl _, List.subset_cons_self n _, rfl, rfl⟩, ?_⟩
    rintro ⟨h1, h2, h3, h4, h5, h6⟩
    exact ⟨seqOK_cons_other h1, seqOK_cons_other h2, seqOK_cons_other h3,
      seqOK_append_new h4 hn, seqOK_cons_other h5, h6⟩

theorem addSubprogram_good (g : Graph) (st : DebugInfoFinder) (n : Nat) :
    GoodStep g st (addSubprogram st n) := by
  unfold addSubprogram
  by_cases hn : n ∈ st.NodesSeen
  · simp only [hn, if_true]
    exact GoodStep.refl g st
  · simp only [hn, if_false]
    refine ⟨⟨rfl, rfl, List.sublist_append_left _ _, List.Sublist.refl _,
      List.Sublist.refl _, List.subset_cons_self n _, rfl, rfl⟩, ?_⟩
    rintro ⟨h1, h2, h3, h4, h5, h6⟩
    exact ⟨seqOK_cons_other h1, seqOK_append_new h2 hn, seqOK_cons_other h3,
      seqOK_cons_other h4, seqOK_cons_other h5, h6⟩

theorem addScope_good (g : Graph) (st : DebugInfoFinder) (n : Nat)
    (hl : isLexicalBlock g (some n) = false) :
    GoodStep g st (addScope st n) := by
  unfold addScope
  by_cases hn : n ∈ st.NodesSeen
  · simp only [hn, if_true]
    exact GoodStep.refl g st
  · simp only [hn, if_false]
    refine ⟨⟨rfl, rfl, List.Sublist.refl _, List.Sublist.refl _,
      List.sublist_append_left _ _, List.subset_cons_self n _, rfl, rfl⟩, ?_⟩
    rintro ⟨h1, h2, h3, h4, h5, h6⟩
    refine ⟨seqOK_cons_other h1, seqOK_cons_other h2, seqOK_cons_other h3,
      seqOK_cons_other h4, seqOK_append_new h5 hn, ?_⟩
    intro x hx
    rcases List.mem_append.mp hx with hx | hx
    · exact h6 x hx
    · simp only [List.mem_singleton] at hx
      simpa [hx] using hl

theorem processF_ptype_none (g : Graph) (f : Nat) (st : DebugInfoFinder) :
    processF g f st (PCall.ptype none) = some st := by
  cases f <;> rfl

theorem processF_ptype_seen (g : Graph) (f : Nat) (st : DebugInfoFinder) (n : Nat)
    (h : n ∈ st.NodesSeen) :
    processF g f st (PCall.ptype (some n)) = some st := by
  cases f <;> simp [processF, h]

theorem processF_ptype_zero (g : Graph) (st : DebugInfoFinder) (n : Nat)
    (h : n ∉ st.NodesSeen) :
    processF g 0 st (PCall.ptype (some n)) = none := by
  simp [processF, h]

theorem processF_ptype_succ (g : Graph) (f : Nat) (st : DebugInfoFinder) (n : Nat)
    (h : n ∉ st.NodesSeen) :
    processF g (f + 1) st (PCall.ptype (some n)) =
      (DIRef.resolve g st.TypeIdentifierMap (getRefField g n 2)).bind (fun ctx =>
        (if isCompositeType g (some n) then
          (DIRef.resolve g st.TypeIdentifierMap (getRefField g n 9)).bind (fun der =>
            (processF g f (addType st n) (PCall.ptype der)).bind (fun st2 =>
              foldProc
                (fun s d => if isType g d then processF g f s (PCall.ptype d) else some s)
                st2 (arrayElems g (some n) 10)))
        else if isDerivedType g (some n) then
          (DIRef.resolve g st.TypeIdentifierMap (getRefField g n 9)).bind (fun der =>
            processF g f (addType st n) (PCall.ptype der))
        else
          some (addType st n)).bind (fun stm =>
          processF g f stm (PCall.pscope ctx))) := by
  simp [processF, h]

theorem processF_pscope_none (g : Graph) (f : Nat) (st : DebugInfoFinder) :
    processF g f st (PCall.pscope none) = some st := by
  cases f <;> rfl

theorem processF_pscope_seen (g : Graph) (f : Nat) (st : DebugInfoFinder) (n : Nat)
    (h : n ∈ st.NodesSeen) :
    processF g f st (PCall.pscope (some n)) = some st := by
  cases f <;> simp [processF, h]

theorem processF_pscope_zero_lex (g : Graph) (st : DebugInfoFinder) (n : Nat)
    (h : n ∉ st.NodesSeen) (hl : isLexicalBlock g (some n) = true) :
    processF g 0 st (PCall.pscope (some n)) = none := by
  simp [processF, h, hl]

theorem processF_pscope_succ_lex (g : Graph) (f : Nat) (st : DebugInfoFinder) (n : Nat)
    (h : n ∉ st.NodesSeen) (hl : isLexicalBlock g (some n) = true) :
    processF g (f + 1) st (PCall.pscope (some n)) =
      processF g f (markSeen st n) (PCall.pscope (getDescriptorField g (some n) 2)) := by
  simp [processF, h, hl]

theorem processF_pscope_nonlex (g : Graph) (f : Nat) (st : DebugInfoFinder) (n : Nat)
    (h : n ∉ st.NodesSeen) (hl : isLexicalBlock g (some n) = false) :
    processF g f st (PCall.pscope (some n)) = some (addScope st n) := by
  cases f <;> simp [processF, h, hl]

theorem processF_psub_none (g : Graph) (f : Nat) (st : DebugInfoFinder) :
    processF g f st (PCall.psub none) = some st := by
  cases f <;> rfl

theorem processF_psub_seen (g : Graph) (f : Nat) (st : DebugInfoFinder) (n : Nat)
    (h : n ∈ st.NodesSeen) :
    processF g f st (PCall.psub (some n)) = some st := by
  cases f <;> simp [processF, h]

theorem processF_psub_zero (g : Graph) (st : DebugInfoFinder) (n : Nat)
    (h : n ∉ st.NodesSeen) :
    processF g 0 st (PCall.psub (some n)) = none := by
  simp [processF, h]

theorem processF_psub_succ (g : Graph) (f : Nat) (st : DebugInfoFinder) (n : Nat)
    (h : n ∉ st.NodesSeen) :
    processF g (f + 1) st (PCall.psub (some n)) =
      (DIRef.resolve g st.TypeIdentifierMap (getRefField g n 2)).bind (fun ctx =>
        (processF g f (addSubprogram st n) (PCall.pscope ctx)).bind (fun st2 =>
          (processF g f st2 (PCall.ptype (getDescriptorField g (some n) 7))).bind (fun st3 =>
            foldProc
              (fun s v =>
                (processF g f s (PCall.ptype (getDescriptorField g v 5))).bind (fun s2 =>
                  processF g f s2 (PCall.pscope (getDescriptorField g v 1))))
              st3 (arrayElems g (some n) 18)))) := by
  simp [processF, h]

theorem foldProc_nil (h : DebugInfoFinder → Option Nat → Option DebugInfoFinder)
    (st : DebugInfoFinder) : foldProc h st [] = some st := rfl

theorem foldProc_cons (h : DebugInfoFinder → Option Nat → Option DebugInfoFinder)
    (st : DebugInfoFinder) (d : Option Nat) (rest : List (Option Nat)) :
    foldProc h st (d :: rest) =
      match h st d with
      | none => none
      | some st' => foldProc h st' rest := rfl

theorem foldProc_good {g : Graph}
    {h : DebugInfoFinder → Option Nat → Option DebugInfoFinder}
    (hh : ∀ s d s', h s d = some s' → GoodStep g s s') :
    ∀ ds st st', foldProc h st ds = some st' → GoodStep g st st'
  | [], st, st', hf => by
    rw [foldProc_nil] at hf
    cases hf
    exact GoodStep.refl g st
  | d :: rest, st, st', hf => by
    rw [foldProc_cons] at hf
    cases hstep : h st d with
    | none => rw [hstep] at hf; cases hf
    | some s1 =>
      rw [hstep] at hf
      exact (hh st d s1 hstep).trans (foldProc_good hh rest s1 st' hf)

theorem processF_good (g : Graph) :
    ∀ f st c st', processF g f st c = some st' → GoodStep g st st' := by
  intro f
  induction f with
  | zero =>
    intro st c st' h
    match c with
    | PCall.ptype none =>
      rw [processF_ptype_none] at h
      cases h
      exact GoodStep.refl g st
    | PCall.ptype (some n) =>
      by_cases hn : n ∈ st.NodesSeen
      · rw [processF_ptype_seen g _ _ _ hn] at h
        cases h
        exact GoodStep.refl g st
      · rw [processF_ptype_zero g _ _ hn] at h
        cases h
    | PCall.pscope none =>
      rw [processF_pscope_none] at h
      cases h
      exact GoodStep.refl g st
    | PCall.pscope (some n) =>
      by_cases hn : n ∈ st.NodesSeen
      · rw [processF_pscope_seen g _ _ _ hn] at h
        cases h
        exact GoodStep.refl g st
      · cases hl : isLexicalBlock g (some n) with
        | true =>
          rw [processF_pscope_zero_lex g _ _ hn hl] at h
          cases h
        | false =>
          rw [processF_pscope_nonlex g _ _ _ hn hl] at h
          cases h
          exact addScope_good g st n hl
    | PCall.psub none =>
      rw [processF_psub_none] at h
      cases h
      exact GoodStep.refl g st
    | PCall.psub (some n) =>
      by_cases hn : n ∈ st.NodesSeen
      · rw [processF_psub_seen g _ _ _ hn] at h
        cases h
        exact GoodStep.refl g st
      · rw [processF_psub_zero g _ _ hn] at h
        cases h
  | succ f ih =>
    intro st c st' h
    match c with
    | PCall.ptype none =>
      rw [processF_ptype_none] at h
      cases h
      exact GoodStep.refl g st
    | PCall.ptype (some n) =>
      by_cases hn : n ∈ st.NodesSeen
      · rw [processF_ptype_seen g _ _ _ hn] at h
        cases h
        exact GoodStep.refl g st
      · rw [processF_ptype_succ g f st n hn] at h
        rw [Option.bind_eq_some] at h
        obtain ⟨ctx, _hctx, h⟩ := h
        rw [Option.bind_eq_some] at h
        obtain ⟨stm, hstm, hps⟩ := h
        have hmid : GoodStep g st stm := by
          by_cases hc : isCompositeType g (some n) = true
          · rw [if_pos hc] at hstm
            rw [Option.bind_eq_some] at hstm
            obtain ⟨der, _hder, hstm⟩ := hstm
            rw [Option.bind_eq_some] at hstm
            obtain ⟨st2, h2, h3⟩ := hstm
            refine (addType_good g st n).trans ((ih _ _ _ h2).trans ?_)
            refine foldProc_good ?_ _ _ _ h3
            intro s d s' hsd
            by_cases ht : isType g d = true
            · rw [if_pos ht] at hsd
              exact ih _ _ _ hsd
            · rw [if_neg ht] at hsd
              cases hsd
              exact GoodStep.refl g s
          · rw [if_neg hc] at hstm
            by_cases hd : isDerivedType g (some n) = true
            · rw [if_pos hd] at hstm
              rw [Option.bind_eq_some] at hstm
              obtain ⟨der, _hder, hstm⟩ := hstm
              exact (addType_good g st n).trans (ih _ _ _ hstm)
            · rw [if_neg hd] at hstm
              cases hstm
              exact addType_good g st n
        exact hmid.trans (ih _ _ _ hps)
    | PCall.pscope none =>
      rw [processF_pscope_none] at h
      cases h
      exact GoodStep.refl g st
    | PCall.pscope (some n) =>
      by_cases hn : n ∈ st.NodesSeen
      · rw [processF_pscope_seen g _ _ _ hn] at h
        cases h
        exact GoodStep.refl g st
      · cases hl : isLexicalBlock g (some n) with
        | true =>
          rw [processF_pscope_succ_lex g f st n hn hl] at h
          exact (markSeen_good g st n).trans (ih _ _ _ h)
        | false =>
          rw [processF_pscope_nonlex g _ _ _ hn hl] at h
          cases h
          exact addScope_good g st n hl
    | PCall.psub none =>
      rw [processF_psub_none] at h
      cases h
      exact GoodStep.refl g st
    | PCall.psub (some n) =>
      by_cases hn : n ∈ st.NodesSeen
      · rw [processF_psub_seen g _ _ _ hn] at h
        cases h
        exact GoodStep.refl g st
      · rw [processF_psub_succ g f st n hn] at h
        rw [Option.bind_eq_some] at h
        obtain ⟨ctx, _hctx, h⟩ := h
        rw [Option.bind_eq_some] at h
        obtain ⟨st2, h2, h⟩ := h
        rw [Option.bind_eq_some] at h
        obtain ⟨st3, h3, h4⟩ := h
        refine ((addSubprogram_good g st n).trans (ih _ _ _ h2)).trans
          (((ih _ _ _ h3)).trans ?_)
        refine foldProc_good ?_ _ _ _ h4
        intro s v s' hsv
        rw [Option.bind_eq_some] at hsv
        obtain ⟨s2, hs2, hs3⟩ := hsv
        exact (ih _ _ _ hs2).trans (ih _ _ _ hs3)

theorem filterNotMem_mono (l : List Nat) {s s' : List Nat} (h : s ⊆ s') :
    (l.filter (fun i => decide (i ∉ s'))).length ≤
      (l.filter (fun i => decide (i ∉ s))).length := by
  induction l with
  | nil => simp
  | cons a t ih =>
    by_cases h1 : a ∈ s'
    · by_cases h2 : a ∈ s
      · simp only [List.filter_cons, h1, h2]
        simpa using ih
      · simp only [List.filter_cons, h1, h2]
        simp only [not_true_eq_false, not_false_eq_true, decide_True, decide_False,
          Bool.false_eq_true, if_false, if_true, List.length_cons]
        omega
    · have h2 : a ∉ s := fun hm => h1 (h hm)
      simp only [List.filter_cons, h1, h2, not_false_eq_true, decide_True, if_true,
        List.length_cons]
      omega

theorem filterNotMem_cons_lt (l : List Nat) {s : List Nat} {n : Nat}
    (hl : n ∈ l) (hn : n ∉ s) :
    (l.filter (fun i => decide (i ∉ n :: s))).length <
      (l.filter (fun i => decide (i ∉ s))).length := by
  induction l with
  | nil => cases hl
  | cons a t ih =>
    by_cases ha : a = n
    · subst ha
      have h3 : ¬ (a ∉ a :: s) := by simp
      simp only [List.filter_cons, h3, hn, not_false_eq_true, decide_True,
        decide_False, Bool.false_eq_true, if_false, if_true, List.length_cons]
      have := filterNotMem_mono t (List.subset_cons_self a s)
      omega
    · have hnt : n ∈ t := by
        rcases List.mem_cons.mp hl with h | h
        · exact absurd h.symm ha
        · exact h
      by_cases h2 : a ∈ s
      · have h3 : ¬ (a ∉ n :: s) := by simp [List.mem_cons, h2]
        have h4 : ¬ (a ∉ s) := by simp [h2]
        simp only [List.filter_cons, h3, h4, decide_False, Bool.false_eq_true, if_false]
        exact ih hnt
      · have h3 : a ∉ n :: s := by simp [List.mem_cons, ha, h2]
        simp only [List.filter_cons, h2, h3, not_false_eq_true, decide_True, if_true,
          List.length_cons]
        have := ih hnt
        omega

theorem unvisitedL_le (g : Graph) (s : List Nat) : unvisitedL g s ≤ g.length := by
  unfold unvisitedL
  calc ((List.range g.length).filter (fun i => decide (i ∉ s))).length
      ≤ (List.range g.length).length := List.length_filter_le _ _
    _ = g.length := List.length_range g.length

theorem unvisitedL_mono (g : Graph) {s s' : List Nat} (h : s ⊆ s') :
    unvisitedL g s' ≤ unvisitedL g s :=
  filterNotMem_mono (List.range g.length) h

theorem unvisitedL_cons_lt (g : Graph) {s : List Nat} {n : Nat}
    (hlt : n < g.length) (hn : n ∉ s) :
    unvisitedL g (n :: s) < unvisitedL g s :=
  filterNotMem_cons_lt (List.range g.length) (List.mem_range.mpr hlt) hn

theorem getTag_dangling {g : Graph} {n : Nat} (hg : g.get? n = none) :
    getTag g (some n) = 0 := by
  rw [List.get?_eq_getElem?] at hg
  simp [getTag, getUnsignedField, getUInt64Field, getSlotD, getSlot, hg]

theorem isLexicalBlock_lt {g : Graph} {n : Nat}
    (h : isLexicalBlock g (some n) = true) : n < g.length := by
  by_contra hlt
  have hg : g.get? n = none := List.get?_eq_none.mpr (Nat.le_of_not_lt hlt)
  unfold isLexicalBlock at h
  rw [getTag_dangling hg] at h
  simp at h

theorem getRefField_dangling {g : Graph} {n : Nat} (hg : g.get? n = none) (k : Nat) :
    getRefField g n k = RefVal.null := by
  rw [List.get?_eq_getElem?] at hg
  simp [getRefField, getSlot, hg]

theorem getDescriptorField_dangling {g : Graph} {n : Nat} (hg : g.get? n = none) (k : Nat) :
    getDescriptorField g (some n) k = none := by
  rw [List.get?_eq_getElem?] at hg
  simp [getDescriptorField, getSlotD, getSlot, hg]

theorem arrayElems_dangling {g : Graph} {n : Nat} (hg : g.get? n = none) (k : Nat) :
    arrayElems g (some n) k = [] := by
  rw [List.get?_eq_getElem?] at hg
  simp [arrayElems, getSlotD, getSlot, hg]

theorem isCompositeType_dangling {g : Graph} {n : Nat} (hg : g.get? n = none) :
    isCompositeType g (some n) = false := by
  unfold isCompositeType
  rw [getTag_dangling hg]
  rfl

theorem isDerivedType_dangling {g : Graph} {n : Nat} (hg : g.get? n = none) :
    isDerivedType g (some n) = false := by
  unfold isDerivedType
  rw [getTag_dangling hg, isCompositeType_dangling hg]
  rfl

theorem addType_not_seen {st : DebugInfoFinder} {n : Nat} (hn : n ∉ st.NodesSeen) :
    addType st n = { st with NodesSeen := n :: st.NodesSeen, TYs := st.TYs ++ [n] } := by
  simp [addType, hn]

theorem addSubprogram_not_seen {st : DebugInfoFinder} {n : Nat} (hn : n ∉ st.NodesSeen) :
    addSubprogram st n =
      { st with NodesSeen := n :: st.NodesSeen, SPs := st.SPs ++ [n] } := by
  simp [addSubprogram, hn]

theorem addScope_not_seen {st : DebugInfoFinder} {n : Nat} (hn : n ∉ st.NodesSeen) :
    addScope st n =
      { st with NodesSeen := n :: st.NodesSeen, Scopes := st.Scopes ++ [n] } := by
  simp [addScope, hn]

theorem foldProc_ok (h : DebugInfoFinder → Option Nat → Option DebugInfoFinder)
    (P : DebugInfoFinder → Prop)
    (hstep : ∀ s d, P s → ∃ s', h s d = some s' ∧ P s') :
    ∀ ds st, P st → ∃ st', foldProc h st ds = some st' ∧ P st'
  | [], st, hP => ⟨st, foldProc_nil h st, hP⟩
  | d :: rest, st, hP => by
    obtain ⟨s1, hs1, hP1⟩ := hstep st d hP
    obtain ⟨st', hst', hP'⟩ := foldProc_ok h P hstep rest s1 hP1
    exact ⟨st', by rw [foldProc_cons, hs1]; exact hst', hP'⟩

theorem processF_ok (g : Graph) :
    ∀ f st c, IdentsOK g st.TypeIdentifierMap → unvisited g st < f →
      ∃ st', processF g f st c = some st' := by
  intro f
  induction f with
  | zero =>
    intro st c _ hfu
    exact absurd hfu (Nat.not_lt_zero _)
  | succ f ih =>
    intro st c hid hfu
    have hPstep : ∀ s c2 s', processF g f s c2 = some s' →
        (IdentsOK g s.TypeIdentifierMap ∧ unvisited g s < f) →
        IdentsOK g s'.TypeIdentifierMap ∧ unvisited g s' < f := by
      rintro s c2 s' hrun ⟨hid2, hfus⟩
      obtain ⟨⟨_, _, _, _, _, hseen, hmap, _⟩, _⟩ := processF_good g f s c2 s' hrun
      constructor
      · rw [hmap]; exact hid2
      · have := unvisitedL_mono g hseen
        unfold unvisited at *
        omega
    match c with
    | PCall.ptype none => exact ⟨st, processF_ptype_none g _ st⟩
    | PCall.ptype (some n) =>
      by_cases hn : n ∈ st.NodesSeen
      · exact ⟨st, processF_ptype_seen g _ st n hn⟩
      · by_cases hlt : n < g.length
        · -- a real node: mark it, then all children run with smaller unvisited count
          have hctxS := (hid n hlt).1
          obtain ⟨ctx, hctx⟩ := Option.isSome_iff_exists.mp hctxS
          have hderS := (hid n hlt).2
          obtain ⟨der, hder⟩ := Option.isSome_iff_exists.mp hderS
          have hseen1 : (addType st n).NodesSeen = n :: st.NodesSeen := by
            rw [addType_not_seen hn]
          have hmap1 : (addType st n).TypeIdentifierMap = st.TypeIdentifierMap := by
            rw [addType_not_seen hn]
          have hfu1 : unvisited g (addType st n) < f := by
            unfold unvisited
            rw [hseen1]
            have := unvisitedL_cons_lt g hlt hn
            unfold unvisited at hfu
            omega
          have hid1 : IdentsOK g (addType st n).TypeIdentifierMap := by
            rw [hmap1]; exact hid
          by_cases hc : isCompositeType g (some n) = true
          · obtain ⟨st2, hst2⟩ := ih (addType st n) (PCall.ptype der) hid1 hfu1
            have hP2 := hPstep _ _ _ hst2 ⟨hid1, hfu1⟩
            obtain ⟨st3, hst3, hP3⟩ := foldProc_ok
              (fun s d => if isType g d then processF g f s (PCall.ptype d) else some s)
              (fun s => IdentsOK g s.TypeIdentifierMap ∧ unvisited g s < f)
              (by
                intro s d hP
                by_cases ht : isType g d = true
                · obtain ⟨s', hs'⟩ := ih s (PCall.ptype d) hP.1 hP.2
                  refine ⟨s', ?_, hPstep _ _ _ hs' hP⟩
                  show (if isType g d = true then processF g f s (PCall.ptype d)
                    else some s) = some s'
                  rw [if_pos ht]
                  exact hs'
                · refine ⟨s, ?_, hP⟩
                  show (if isType g d = true then processF g f s (PCall.ptype d)
                    else some s) = some s
                  rw [if_neg ht])
              (arrayElems g (some n) 10) st2 hP2
            obtain ⟨st4, hst4⟩ := ih st3 (PCall.pscope ctx) hP3.1 hP3.2
            refine ⟨st4, ?_⟩
            rw [processF_ptype_succ g f st n hn, hctx, Option.some_bind, if_pos hc,
              hder, Option.some_bind, hst2, Option.some_bind, hst3, Option.some_bind]
            exact hst4
          · by_cases hd : isDerivedType g (some n) = true
            · obtain ⟨st2, hst2⟩ := ih (addType st n) (PCall.ptype der) hid1 hfu1
              have hP2 := hPstep _ _ _ hst2 ⟨hid1, hfu1⟩
              obtain ⟨st4, hst4⟩ := ih st2 (PCall.pscope ctx) hP2.1 hP2.2
              refine ⟨st4, ?_⟩
              rw [processF_ptype_succ g f st n hn, hctx, Option.some_bind, if_neg hc,
                if_pos hd, hder, Option.some_bind, hst2, Option.some_bind]
              exact hst4
            · obtain ⟨st4, hst4⟩ := ih (addType st n) (PCall.pscope ctx) hid1 hfu1
              refine ⟨st4, ?_⟩
              rw [processF_ptype_succ g f st n hn, hctx, Option.some_bind, if_neg hc,
                if_neg hd, Option.some_bind]
              exact hst4
        · -- a dangling index: every child argument is empty
          have hg : g.get? n = none := List.get?_eq_none.mpr (Nat.le_of_not_lt hlt)
          refine ⟨addType st n, ?_⟩
          rw [processF_ptype_succ g f st n hn, getRefField_dangling hg,
            getRefField_dangling hg]
          show (DIRef.resolve g st.TypeIdentifierMap RefVal.null).bind _ = _
          rw [show DIRef.resolve g st.TypeIdentifierMap RefVal.null = some none from rfl,
            Option.some_bind, if_neg (by rw [isCompositeType_dangling hg]; simp),
            if_neg (by rw [isDerivedType_dangling hg]; simp), Option.some_bind]
          exact processF_pscope_none g f (addType st n)
    | PCall.pscope none => exact ⟨st, processF_pscope_none g _ st⟩
    | PCall.pscope (some n) =>
      by_cases hn : n ∈ st.NodesSeen
      · exact ⟨st, processF_pscope_seen g _ st n hn⟩
      · cases hl : isLexicalBlock g (some n) with
        | true =>
          have hlt : n < g.length := isLexicalBlock_lt hl
          have hfu1 : unvisited g (markSeen st n) < f := by
            have h2 := unvisitedL_cons_lt g hlt hn
            unfold unvisited at hfu
            show unvisitedL g (markSeen st n).NodesSeen < f
            have h3 : (markSeen st n).NodesSeen = n :: st.NodesSeen := rfl
            rw [h3]
            omega
          obtain ⟨st', hst'⟩ := ih (markSeen st n)
            (PCall.pscope (getDescriptorField g (some n) 2)) hid hfu1
          exact ⟨st', by rw [processF_pscope_succ_lex g f st n hn hl]; exact hst'⟩
        | false =>
          exact ⟨addScope st n, processF_pscope_nonlex g _ st n hn hl⟩
    | PCall.psub none => exact ⟨st, processF_psub_none g _ st⟩
    | PCall.psub (some n) =>
      by_cases hn : n ∈ st.NodesSeen
      · exact ⟨st, processF_psub_seen g _ st n hn⟩
      · by_cases hlt : n < g.length
        · have hctxS := (hid n hlt).1
          obtain ⟨ctx, hctx⟩ := Option.isSome_iff_exists.mp hctxS
          have hseen1 : (addSubprogram st n).NodesSeen = n :: st.NodesSeen := by
            rw [addSubprogram_not_seen hn]
          have hmap1 : (addSubprogram st n).TypeIdentifierMap = st.TypeIdentifierMap := by
            rw [addSubprogram_not_seen hn]
          have hfu1 : unvisited g (addSubprogram st n) < f := by
            unfold unvisited
            rw [hseen1]
            have := unvisitedL_cons_lt g hlt hn
            unfold unvisited at hfu
            omega
          have hid1 : IdentsOK g (addSubprogram st n).TypeIdentifierMap := by
            rw [hmap1]; exact hid
          obtain ⟨st2, hst2⟩ := ih (addSubprogram st n) (PCall.pscope ctx) hid1 hfu1
          have hP2 := hPstep _ _ _ hst2 ⟨hid1, hfu1⟩
          obtain ⟨st3, hst3⟩ := ih st2
            (PCall.ptype (getDescriptorField g (some n) 7)) hP2.1 hP2.2
          have hP3 := hPstep _ _ _ hst3 hP2
          obtain ⟨st4, hst4, _⟩ := foldProc_ok
            (fun s v =>
              (processF g f s (PCall.ptype (getDescriptorField g v 5))).bind (fun s2 =>
                processF g f s2 (PCall.pscope (getDescriptorField g v 1))))
            (fun s => IdentsOK g s.TypeIdentifierMap ∧ unvisited g s < f)
            (by
              intro s v hP
              obtain ⟨s2, hs2⟩ := ih s (PCall.ptype (getDescriptorField g v 5)) hP.1 hP.2
              have hPs2 := hPstep _ _ _ hs2 hP
              obtain ⟨s3, hs3⟩ := ih s2 (PCall.pscope (getDescriptorField g v 1))
                hPs2.1 hPs2.2
              refine ⟨s3, ?_, hPstep _ _ _ hs3 hPs2⟩
              show (processF g f s (PCall.ptype (getDescriptorField g v 5))).bind
                  (fun s2 => processF g f s2 (PCall.pscope (getDescriptorField g v 1))) =
                some s3
              rw [hs2, Option.some_bind]
              exact hs3)
            (arrayElems g (some n) 18) st3 hP3
          refine ⟨st4, ?_⟩
          rw [processF_psub_succ g f st n hn, hctx, Option.some_bind, hst2,
            Option.some_bind, hst3, Option.some_bind]
          exact hst4
        · have hg : g.get? n = none := List.get?_eq_none.mpr (Nat.le_of_not_lt hlt)
          refine ⟨addSubprogram st n, ?_⟩
          rw [processF_psub_succ g f st n hn, getRefField_dangling hg]
          show (DIRef.resolve g st.TypeIdentifierMap RefVal.null).bind _ = _
          rw [show DIRef.resolve g st.TypeIdentifierMap RefVal.null = some none from rfl,
            Option.some_bind, processF_pscope_none, Option.some_bind,
            getDescriptorField_dangling hg, processF_ptype_none, Option.some_bind,
            arrayElems_dangling hg]
          exact foldProc_nil _ _

theorem GoodStep.cus {g : Graph} {s s' : DebugInfoFinder} (h : GoodStep g s s') :
    s'.CUs = s.CUs := h.1.1

theorem GoodStep.gvs {g : Graph} {s s' : DebugInfoFinder} (h : GoodStep g s s') :
    s'.GVs = s.GVs := h.1.2.1

theorem GoodStep.seen {g : Graph} {s s' : DebugInfoFinder} (h : GoodStep g s s') :
    s.NodesSeen ⊆ s'.NodesSeen := h.1.2.2.2.2.2.1

theorem GoodStep.map {g : Graph} {s s' : DebugInfoFinder} (h : GoodStep g s s') :
    s'.TypeIdentifierMap = s.TypeIdentifierMap := h.1.2.2.2.2.2.2.1

theorem GoodStep.flag {g : Graph} {s s' : DebugInfoFinder} (h : GoodStep g s s') :
    s'.TypeMapInitialized = s.TypeMapInitialized := h.1.2.2.2.2.2.2.2

theorem GoodStep.tys {g : Graph} {s s' : DebugInfoFinder} (h : GoodStep g s s') :
    List.Sublist s.TYs s'.TYs := h.1.2.2.2.1

theorem GoodStep.wf {g : Graph} {s s' : DebugInfoFinder} (h : GoodStep g s s') :
    WFst g s → WFst g s' := h.2

theorem membersStep_good (g : Graph) (f : Nat) :
    ∀ s d s', (if isType g d = true then processF g f s (PCall.ptype d) else some s) = some s' →
      GoodStep g s s' := by
  intro s d s' hsd
  by_cases ht : isType g d = true
  · rw [if_pos ht] at hsd
    exact processF_good g f s _ s' hsd
  · rw [if_neg ht] at hsd
    cases hsd
    exact GoodStep.refl g s

theorem processF_marks_ptype (g : Graph) (f : Nat) (st : DebugInfoFinder) (m : Nat)
    (st' : DebugInfoFinder) (h : processF g f st (PCall.ptype (some m)) = some st') :
    m ∈ st'.NodesSeen := by
  by_cases hn : m ∈ st.NodesSeen
  · rw [processF_ptype_seen g f st m hn] at h
    cases h
    exact hn
  · cases f with
    | zero =>
      rw [processF_ptype_zero g st m hn] at h
      cases h
    | succ f =>
      rw [processF_ptype_succ g f st m hn] at h
      rw [Option.bind_eq_some] at h
      obtain ⟨ctx, _hctx, h⟩ := h
      rw [Option.bind_eq_some] at h
      obtain ⟨stm, hstm, hps⟩ := h
      have hmemAdd : m ∈ (addType st m).NodesSeen := by
        rw [addType_not_seen hn]
        exact List.mem_cons_self m _
      have hmemStm : m ∈ stm.NodesSeen := by
        by_cases hc : isCompositeType g (some m) = true
        · rw [if_pos hc] at hstm
          rw [Option.bind_eq_some] at hstm
          obtain ⟨der, _hder, hstm⟩ := hstm
          rw [Option.bind_eq_some] at hstm
          obtain ⟨st2, h2, h3⟩ := hstm
          exact (foldProc_good (membersStep_good g f) _ _ _ h3).seen
            ((processF_good g f _ _ _ h2).seen hmemAdd)
        · rw [if_neg hc] at hstm
          by_cases hd : isDerivedType g (some m) = true
          · rw [if_pos hd] at hstm
            rw [Option.bind_eq_some] at hstm
            obtain ⟨der, _hder, hstm⟩ := hstm
            exact (processF_good g f _ _ _ hstm).seen hmemAdd
          · rw [if_neg hd] at hstm
            cases hstm
            exact hmemAdd
      exact (processF_good g f _ _ _ hps).seen hmemStm

theorem processF_marks_pscope (g : Graph) (f : Nat) (st : DebugInfoFinder) (m : Nat)
    (st' : DebugInfoFinder) (h : processF g f st (PCall.pscope (some m)) = some st') :
    m ∈ st'.NodesSeen := by
  by_cases hn : m ∈ st.NodesSeen
  · rw [processF_pscope_seen g f st m hn] at h
    cases h
    exact hn
  · cases hl : isLexicalBlock g (some m) with
    | true =>
      cases f with
      | zero =>
        rw [processF_pscope_zero_lex g st m hn hl] at h
        cases h
      | succ f =>
        rw [processF_pscope_succ_lex g f st m hn hl] at h
        have hmem : m ∈ (markSeen st m).NodesSeen := List.mem_cons_self m _
        exact (processF_good g f _ _ _ h).seen hmem
    | false =>
      rw [processF_pscope_nonlex g f st m hn hl] at h
      cases h
      rw [addScope_not_seen hn]
      exact List.mem_cons_self m _

theorem processF_marks_psub (g : Graph) (f : Nat) (st : DebugInfoFinder) (m : Nat)
    (st' : DebugInfoFinder) (h : processF g f st (PCall.psub (some m)) = some st') :
    m ∈ st'.NodesSeen := by
  by_cases hn : m ∈ st.NodesSeen
  · rw [processF_psub_seen g f st m hn] at h
    cases h
    exact hn
  · cases f with
    | zero =>
      rw [processF_psub_zero g st m hn] at h
      cases h
    | succ f =>
      rw [processF_psub_succ g f st m hn] at h
      rw [Option.bind_eq_some] at h
      obtain ⟨ctx, _hctx, h⟩ := h
      rw [Option.bind_eq_some] at h
      obtain ⟨st2, h2, h⟩ := h
      rw [Option.bind_eq_some] at h
      obtain ⟨st3, h3, h4⟩ := h
      have hmemAdd : m ∈ (addSubprogram st m).NodesSeen := by
        rw [addSubprogram_not_seen hn]
        exact List.mem_cons_self m _
      have hvar : ∀ s v s',
          ((processF g f s (PCall.ptype (getDescriptorField g v 5))).bind (fun s2 =>
            processF g f s2 (PCall.pscope (getDescriptorField g v 1)))) = some s' →
          GoodStep g s s' := by
        intro s v s' hsv
        rw [Option.bind_eq_some] at hsv
        obtain ⟨s2, hs2, hs3⟩ := hsv
        exact (processF_good g f _ _ _ hs2).trans (processF_good g f _ _ _ hs3)
      exact (foldProc_good hvar _ _ _ h4).seen
        ((processF_good g f _ _ _ h3).seen
          ((processF_good g f _ _ _ h2).seen hmemAdd))

theorem DrvStep.drefl (g : Graph) (st : DebugInfoFinder) : DrvStep g st st :=
  ⟨⟨List.Sublist.refl _, List.Sublist.refl _, List.Sublist.refl _, List.Sublist.refl _,
    List.Sublist.refl _, fun _x hx => hx, rfl, rfl⟩, id⟩

theorem DrvStep.dtrans {g : Graph} {s1 s2 s3 : DebugInfoFinder}
    (h1 : DrvStep g s1 s2) (h2 : DrvStep g s2 s3) : DrvStep g s1 s3 := by
  obtain ⟨⟨a1, b1, c1, d1, e1, f1, m1, t1⟩, w1⟩ := h1
  obtain ⟨⟨a2, b2, c2, d2, e2, f2, m2, t2⟩, w2⟩ := h2
  exact ⟨⟨a1.trans a2, b1.trans b2, c1.trans c2, d1.trans d2, e1.trans e2,
    fun _x hx => f2 (f1 hx), m2.trans m1, t2.trans t1⟩, fun hw => w2 (w1 hw)⟩

theorem GoodStep.toDrv {g : Graph} {s s' : DebugInfoFinder} (h : GoodStep g s s') :
    DrvStep g s s' := by
  obtain ⟨⟨a, b, c, d, e, f, m, t⟩, w⟩ := h
  exact ⟨⟨a ▸ List.Sublist.refl _, b ▸ List.Sublist.refl _, c, d, e, f, m, t⟩, w⟩

theorem DrvStep.dseen {g : Graph} {s s' : DebugInfoFinder} (h : DrvStep g s s') :
    s.NodesSeen ⊆ s'.NodesSeen := h.1.2.2.2.2.2.1

theorem DrvStep.dmap {g : Graph} {s s' : DebugInfoFinder} (h : DrvStep g s s') :
    s'.TypeIdentifierMap = s.TypeIdentifierMap := h.1.2.2.2.2.2.2.1

theorem DrvStep.dflag {g : Graph} {s s' : DebugInfoFinder} (h : DrvStep g s s') :
    s'.TypeMapInitialized = s.TypeMapInitialized := h.1.2.2.2.2.2.2.2

theorem DrvStep.dtys {g : Graph} {s s' : DebugInfoFinder} (h : DrvStep g s s') :
    List.Sublist s.TYs s'.TYs := h.1.2.2.2.1

theorem DrvStep.dwf {g : Graph} {s s' : DebugInfoFinder} (h : DrvStep g s s') :
    WFst g s → WFst g s' := h.2

theorem addCompileUnit_drv (g : Graph) (st : DebugInfoFinder) (n : Nat) :
    DrvStep g st (addCompileUnit st n) := by
  unfold addCompileUnit
  by_cases hn : n ∈ st.NodesSeen
  · simp only [hn, if_true]
    exact DrvStep.drefl g st
  · simp only [hn, if_false]
    refine ⟨⟨List.sublist_append_left _ _, List.Sublist.refl _, List.Sublist.refl _,
      List.Sublist.refl _, List.Sublist.refl _, List.subset_cons_self n _, rfl, rfl⟩, ?_⟩
    rintro ⟨h1, h2, h3, h4, h5, h6⟩
    exact ⟨seqOK_append_new h1 hn, seqOK_cons_other h2, seqOK_cons_other h3,
      seqOK_cons_other h4, seqOK_cons_other h5, h6⟩

theorem addGlobalVariable_drv (g : Graph) (st : DebugInfoFinder) (n : Nat) :
    DrvStep g st (addGlobalVariable st n) := by
  unfold addGlobalVariable
  by_cases hn : n ∈ st.NodesSeen
  · simp only [hn, if_true]
    exact DrvStep.drefl g st
  · simp only [hn, if_false]
    refine ⟨⟨List.Sublist.refl _, List.sublist_append_left _ _, List.Sublist.refl _,
      List.Sublist.refl _, List.Sublist.refl _, List.subset_cons_self n _, rfl, rfl⟩, ?_⟩
    rintro ⟨h1, h2, h3, h4, h5, h6⟩
    exact ⟨seqOK_cons_other h1, seqOK_cons_other h2, seqOK_append_new h3 hn,
      seqOK_cons_other h4, seqOK_cons_other h5, h6⟩

theorem foldProc_drv {g : Graph}
    {h : DebugInfoFinder → Option Nat → Option DebugInfoFinder}
    (hh : ∀ s d s', h s d = some s' → DrvStep g s s') :
    ∀ ds st st', foldProc h st ds = some st' → DrvStep g st st'
  | [], st, st', hf => by
    rw [foldProc_nil] at hf
    cases hf
    exact DrvStep.drefl g st
  | d :: rest, st, st', hf => by
    rw [foldProc_cons] at hf
    cases hstep : h st d with
    | none => rw [hstep] at hf; cases hf
    | some s1 =>
      rw [hstep] at hf
      exact DrvStep.dtrans (hh st d s1 hstep) (foldProc_drv hh rest s1 st' hf)

theorem gvStep_drv (g : Graph) (f : Nat) :
    ∀ s d s',
      processF g f (match d with | none => s | some m => addGlobalVariable s m)
        (PCall.ptype (getDescriptorField g d 8)) = some s' →
      DrvStep g s s' := by
  intro s d s' hsd
  match d with
  | none => exact (processF_good g f _ _ _ hsd).toDrv
  | some m =>
    exact DrvStep.dtrans (addGlobalVariable_drv g s m) (processF_good g f _ _ _ hsd).toDrv

theorem importStep_drv (g : Graph) (f : Nat) :
    ∀ s d s',
      (match processF g f s (PCall.pscope (getDescriptorField g d 1)) with
       | none => none
       | some s2 =>
         if isType g (getDescriptorField g d 2) then
           processF g f s2 (PCall.ptype (getDescriptorField g d 2))
         else if isScopeKind g (getDescriptorField g d 2) then
           processF g f s2 (PCall.pscope (getDescriptorField g d 2))
         else some s2) = some s' →
      DrvStep g s s' := by
  intro s d s' hsd
  cases h1 : processF g f s (PCall.pscope (getDescriptorField g d 1)) with
  | none => rw [h1] at hsd; cases hsd
  | some s2 =>
    simp only [h1] at hsd
    have hd1 : DrvStep g s s2 := (processF_good g f _ _ _ h1).toDrv
    by_cases ht : isType g (getDescriptorField g d 2) = true
    · rw [if_pos ht] at hsd
      exact DrvStep.dtrans hd1 (processF_good g f _ _ _ hsd).toDrv
    · rw [if_neg ht] at hsd
      by_cases hs : isScopeKind g (getDescriptorField g d 2) = true
      · rw [if_pos hs] at hsd
        exact DrvStep.dtrans hd1 (processF_good g f _ _ _ hsd).toDrv
      · rw [if_neg hs] at hsd
        cases hsd
        exact hd1

theorem processCUF_drv (g : Graph) (f : Nat) (st : DebugInfoFinder) (cu : Nat)
    (st' : DebugInfoFinder) (h : processCUF g f st cu = some st') :
    DrvStep g st st' := by
  unfold processCUF at h
  cases h1 : foldProc (fun s d => processF g f s (PCall.psub d))
      (addCompileUnit st cu) (arrayElems g (some cu) 9) with
  | none => rw [h1] at h; cases h
  | some st2 =>
    simp only [h1] at h
    cases h2 : foldProc
        (fun s d =>
          processF g f (match d with | none => s | some m => addGlobalVariable s m)
            (PCall.ptype (getDescriptorField g d 8)))
        st2 (arrayElems g (some cu) 10) with
    | none => simp only [h2] at h; cases h
    | some st3 =>
      simp only [h2] at h
      cases h3 : foldProc (fun s d => processF g f s (PCall.ptype d))
          st3 (arrayElems g (some cu) 8) with
      | none => simp only [h3] at h; cases h
      | some st4 =>
        simp only [h3] at h
        refine DrvStep.dtrans (DrvStep.dtrans (addCompileUnit_drv g st cu)
          (foldProc_drv (fun s d s' hsd => (processF_good g f s _ s' hsd).toDrv)
            _ _ _ h1))
          (DrvStep.dtrans (foldProc_drv (gvStep_drv g f) _ _ _ h2)
            (DrvStep.dtrans (foldProc_drv
              (fun s d s' hsd => (processF_good g f s _ s' hsd).toDrv)
              _ _ _ h3) ?_))
        exact foldProc_drv (importStep_drv g f) _ _ _ h

theorem processModuleGo_drv (g : Graph) (f : Nat) :
    ∀ M st st', processModuleGo g f st M = some st' → DrvStep g st st'
  | [], st, st', h => by
    cases h
    exact DrvStep.drefl g st
  | cu :: rest, st, st', h => by
    unfold processModuleGo at h
    cases h1 : processCUF g f st cu with
    | none => rw [h1] at h; cases h
    | some st1 =>
      rw [h1] at h
      exact DrvStep.dtrans (processCUF_drv g f st cu st1 h1)
        (processModuleGo_drv g f rest st1 st' h)

theorem addCompileUnit_map (st : DebugInfoFinder) (n : Nat) :
    (addCompileUnit st n).TypeIdentifierMap = st.TypeIdentifierMap := by
  unfold addCompileUnit
  split <;> rfl

theorem addGlobalVariable_map (st : DebugInfoFinder) (n : Nat) :
    (addGlobalVariable st n).TypeIdentifierMap = st.TypeIdentifierMap := by
  unfold addGlobalVariable
  split <;> rfl

theorem addCompileUnit_seen {st : DebugInfoFinder} {n : Nat} (hn : n ∈ st.NodesSeen) :
    addCompileUnit st n = st := by
  simp [addCompileUnit, hn]

theorem addCompileUnit_not_seen {st : DebugInfoFinder} {n : Nat} (hn : n ∉ st.NodesSeen) :
    addCompileUnit st n =
      { st with NodesSeen := n :: st.NodesSeen, CUs := st.CUs ++ [n] } := by
  simp [addCompileUnit, hn]

theorem addGlobalVariable_cus (st : DebugInfoFinder) (n : Nat) :
    (addGlobalVariable st n).CUs = st.CUs := by
  unfold addGlobalVariable
  split <;> rfl

theorem processCUF_ok (g : Graph) (f : Nat) (st : DebugInfoFinder) (cu : Nat)
    (hid : IdentsOK g st.TypeIdentifierMap) (hf : g.length < f) :
    ∃ st', processCUF g f st cu = some st' ∧
      st'.TypeIdentifierMap = st.TypeIdentifierMap := by
  have hrun : ∀ s c, s.TypeIdentifierMap = st.TypeIdentifierMap →
      ∃ s', processF g f s c = some s' ∧
        s'.TypeIdentifierMap = st.TypeIdentifierMap := by
    intro s c hmap
    obtain ⟨s', hs'⟩ := processF_ok g f s c (by rw [hmap]; exact hid)
      (lt_of_le_of_lt (unvisitedL_le g s.NodesSeen) hf)
    exact ⟨s', hs', by rw [(processF_good g f s c s' hs').map, hmap]⟩
  have hP0 : (addCompileUnit st cu).TypeIdentifierMap = st.TypeIdentifierMap :=
    addCompileUnit_map st cu
  obtain ⟨st2, hf1, hP2⟩ := foldProc_ok (fun s d => processF g f s (PCall.psub d))
    (fun s => s.TypeIdentifierMap = st.TypeIdentifierMap)
    (by
      intro s d hP
      obtain ⟨s', hs', hm⟩ := hrun s (PCall.psub d) hP
      exact ⟨s', hs', hm⟩)
    (arrayElems g (some cu) 9) (addCompileUnit st cu) hP0
  obtain ⟨st3, hf2, hP3⟩ := foldProc_ok
    (fun s d =>
      processF g f (match d with | none => s | some m => addGlobalVariable s m)
        (PCall.ptype (getDescriptorField g d 8)))
    (fun s => s.TypeIdentifierMap = st.TypeIdentifierMap)
    (by
      intro s d hP
      match d with
      | none => exact hrun s (PCall.ptype (getDescriptorField g none 8)) hP
      | some m =>
        have hm : (addGlobalVariable s m).TypeIdentifierMap = st.TypeIdentifierMap := by
          rw [addGlobalVariable_map]; exact hP
        exact hrun (addGlobalVariable s m)
          (PCall.ptype (getDescriptorField g (some m) 8)) hm)
    (arrayElems g (some cu) 10) st2 hP2
  obtain ⟨st4, hf3, hP4⟩ := foldProc_ok (fun s d => processF g f s (PCall.ptype d))
    (fun s => s.TypeIdentifierMap = st.TypeIdentifierMap)
    (by
      intro s d hP
      exact hrun s (PCall.ptype d) hP)
    (arrayElems g (some cu) 8) st3 hP3
  obtain ⟨st5, hf4, hP5⟩ := foldProc_ok
    (fun s d =>
      match processF g f s (PCall.pscope (getDescriptorField g d 1)) with
      | none => none
      | some s2 =>
        if isType g (getDescriptorField g d 2) then
          processF g f s2 (PCall.ptype (getDescriptorField g d 2))
        else if isScopeKind g (getDescriptorField g d 2) then
          processF g f s2 (PCall.pscope (getDescriptorField g d 2))
        else some s2)
    (fun s => s.TypeIdentifierMap = st.TypeIdentifierMap)
    (by
      intro s d hP
      obtain ⟨s2, hs2, hm2⟩ := hrun s (PCall.pscope (getDescriptorField g d 1)) hP
      by_cases ht : isType g (getDescriptorField g d 2) = true
      · obtain ⟨s3, hs3, hm3⟩ := hrun s2 (PCall.ptype (getDescriptorField g d 2)) hm2
        exact ⟨s3, by simp only [hs2, if_pos ht]; exact hs3, hm3⟩
      · by_cases hs : isScopeKind g (getDescriptorField g d 2) = true
        · obtain ⟨s3, hs3, hm3⟩ := hrun s2 (PCall.pscope (getDescriptorField g d 2)) hm2
          exact ⟨s3, by simp only [hs2, if_neg ht, if_pos hs]; exact hs3, hm3⟩
        · exact ⟨s2, by simp only [hs2, if_neg ht, if_neg hs], hm2⟩)
    (arrayElems g (some cu) 11) st4 hP4
  refine ⟨st5, ?_, hP5⟩
  unfold processCUF
  simp only [hf1, hf2, hf3]
  exact hf4

theorem processModuleGo_ok (g : Graph) (f : Nat) (m0 : TIMap)
    (hid : IdentsOK g m0) (hf : g.length < f) :
    ∀ M st, st.TypeIdentifierMap = m0 →
      ∃ st', processModuleGo g f st M = some st'
  | [], st, _ => ⟨st, rfl⟩
  | cu :: rest, st, hmap => by
    obtain ⟨st1, hcu, hm1⟩ := processCUF_ok g f st cu (by rw [hmap]; exact hid) hf
    obtain ⟨st', hgo⟩ := processModuleGo_ok g f m0 hid hf rest st1 (by rw [hm1, hmap])
    refine ⟨st', ?_⟩
    unfold processModuleGo
    simp only [hcu]
    exact hgo

theorem foldProc_cus {h : DebugInfoFinder → Option Nat → Option DebugInfoFinder}
    (hh : ∀ s d s', h s d = some s' → s'.CUs = s.CUs) :
    ∀ ds st st', foldProc h st ds = some st' → st'.CUs = st.CUs
  | [], st, st', hf => by
    rw [foldProc_nil] at hf
    cases hf
    rfl
  | d :: rest, st, st', hf => by
    rw [foldProc_cons] at hf
    cases hstep : h st d with
    | none => rw [hstep] at hf; cases hf
    | some s1 =>
      rw [hstep] at hf
      rw [foldProc_cus hh rest s1 st' hf, hh st d s1 hstep]

theorem processCUF_cus (g : Graph) (f : Nat) (st : DebugInfoFinder) (cu : Nat)
    (st' : DebugInfoFinder) (h : processCUF g f st cu = some st') :
    st'.CUs = (addCompileUnit st cu).CUs := by
  unfold processCUF at h
  cases h1 : foldProc (fun s d => processF g f s (PCall.psub d))
      (addCompileUnit st cu) (arrayElems g (some cu) 9) with
  | none => rw [h1] at h; cases h
  | some st2 =>
    simp only [h1] at h
    cases h2 : foldProc
        (fun s d =>
          processF g f (match d with | none => s | some m => addGlobalVariable s m)
            (PCall.ptype (getDescriptorField g d 8)))
        st2 (arrayElems g (some cu) 10) with
    | none => simp only [h2] at h; cases h
    | some st3 =>
      simp only [h2] at h
      cases h3 : foldProc (fun s d => processF g f s (PCall.ptype d))
          st3 (arrayElems g (some cu) 8) with
      | none => simp only [h3] at h; cases h
      | some st4 =>
        simp only [h3] at h
        have e1 : st2.CUs = (addCompileUnit st cu).CUs :=
          foldProc_cus (fun s d s' hsd => (processF_good g f s _ s' hsd).cus) _ _ _ h1
        have e2 : st3.CUs = st2.CUs := by
          refine foldProc_cus ?_ _ _ _ h2
          intro s d s' hsd
          match d with
          | none => exact (processF_good g f s _ s' hsd).cus
          | some m =>
            rw [(processF_good g f _ _ s' hsd).cus, addGlobalVariable_cus]
        have e3 : st4.CUs = st3.CUs :=
          foldProc_cus (fun s d s' hsd => (processF_good g f s _ s' hsd).cus) _ _ _ h3
        have e4 : st'.CUs = st4.CUs := by
          refine foldProc_cus ?_ _ _ _ h
          intro s d s' hsd
          cases hps : processF g f s (PCall.pscope (getDescriptorField g d 1)) with
          | none => rw [hps] at hsd; cases hsd
          | some s2 =>
            simp only [hps] at hsd
            have c1 : s2.CUs = s.CUs := (processF_good g f s _ s2 hps).cus
            by_cases ht : isType g (getDescriptorField g d 2) = true
            · rw [if_pos ht] at hsd
              rw [(processF_good g f _ _ s' hsd).cus, c1]
            · rw [if_neg ht] at hsd
              by_cases hsk : isScopeKind g (getDescriptorField g d 2) = true
              · rw [if_pos hsk] at hsd
                rw [(processF_good g f _ _ s' hsd).cus, c1]
              · rw [if_neg hsk] at hsd
                cases hsd
                exact c1
        rw [e4, e3, e2, e1]

theorem processModuleGo_cus (g : Graph) (f : Nat) :
    ∀ M st st', processModuleGo g f st M = some st' →
      ∃ L, st'.CUs = st.CUs ++ L ∧ List.Sublist L M
  | [], st, st', h => by
    cases h
    exact ⟨[], by simp, List.nil_sublist _⟩
  | cu :: rest, st, st', h => by
    unfold processModuleGo at h
    cases h1 : processCUF g f st cu with
    | none => rw [h1] at h; cases h
    | some st1 =>
      simp only [h1] at h
      obtain ⟨L, hcus, hsub⟩ := processModuleGo_cus g f rest st1 st' h
      have hc1 : st1.CUs = (addCompileUnit st cu).CUs := processCUF_cus g f st cu st1 h1
      by_cases hseen : cu ∈ st.NodesSeen
      · refine ⟨L, ?_, hsub.cons cu⟩
        rw [hcus, hc1, addCompileUnit_seen hseen]
      · refine ⟨cu :: L, ?_, hsub.cons₂ cu⟩
        rw [hcus, hc1, addCompileUnit_not_seen hseen]
        simp

theorem initFinder_wf (g : Graph) : WFst g initFinder := by
  refine ⟨⟨List.nodup_nil, ?_⟩, ⟨List.nodup_nil, ?_⟩, ⟨List.nodup_nil, ?_⟩,
    ⟨List.nodup_nil, ?_⟩, ⟨List.nodup_nil, ?_⟩, ?_⟩ <;> simp [initFinder]

theorem addType_seen {st : DebugInfoFinder} {m : Nat} (hm : m ∈ st.NodesSeen) :
    addType st m = st := by
  simp [addType, hm]

theorem addSubprogram_seen {st : DebugInfoFinder} {m : Nat} (hm : m ∈ st.NodesSeen) :
    addSubprogram st m = st := by
  simp [addSubprogram, hm]

theorem addScope_seen {st : DebugInfoFinder} {m : Nat} (hm : m ∈ st.NodesSeen) :
    addScope st m = st := by
  simp [addScope, hm]

theorem addGlobalVariable_seen {st : DebugInfoFinder} {m : Nat} (hm : m ∈ st.NodesSeen) :
    addGlobalVariable st m = st := by
  simp [addGlobalVariable, hm]

theorem addGlobalVariable_not_seen {st : DebugInfoFinder} {m : Nat}
    (hm : m ∉ st.NodesSeen) :
    addGlobalVariable st m =
      { st with NodesSeen := m :: st.NodesSeen, GVs := st.GVs ++ [m] } := by
  simp [addGlobalVariable, hm]

theorem addType_map (st : DebugInfoFinder) (m : Nat) :
    (addType st m).TypeIdentifierMap = st.TypeIdentifierMap := by
  unfold addType
  split <;> rfl

theorem addSubprogram_map (st : DebugInfoFinder) (m : Nat) :
    (addSubprogram st m).TypeIdentifierMap = st.TypeIdentifierMap := by
  unfold addSubprogram
  split <;> rfl

theorem invN_addType_self {n : Nat} {st : DebugInfoFinder} (hn : n ∉ st.NodesSeen) :
    InvN n (addType st n) := by
  rw [addType_not_seen hn]
  intro _hn
  show n ∈ st.TYs ++ [n]
  exact List.mem_append_right _ (List.mem_singleton_self n)

theorem invN_addType_other {n m : Nat} {st : DebugInfoFinder} (hm : m ≠ n)
    (h : InvN n st) : InvN n (addType st m) := by
  by_cases hms : m ∈ st.NodesSeen
  · rw [addType_seen hms]
    exact h
  · rw [addType_not_seen hms]
    intro hn
    have hn2 : n ∈ m :: st.NodesSeen := hn
    show n ∈ st.TYs ++ [m]
    rcases List.mem_cons.mp hn2 with he | hn3
    · exact absurd he.symm hm
    · exact List.mem_append_left _ (h hn3)

theorem invN_addSubprogram_other {n m : Nat} {st : DebugInfoFinder} (hm : m ≠ n)
    (h : InvN n st) : InvN n (addSubprogram st m) := by
  by_cases hms : m ∈ st.NodesSeen
  · rw [addSubprogram_seen hms]
    exact h
  · rw [addSubprogram_not_seen hms]
    intro hn
    have hn2 : n ∈ m :: st.NodesSeen := hn
    show n ∈ st.TYs
    rcases List.mem_cons.mp hn2 with he | hn3
    · exact absurd he.symm hm
    · exact h hn3

theorem invN_addScope_other {n m : Nat} {st : DebugInfoFinder} (hm : m ≠ n)
    (h : InvN n st) : InvN n (addScope st m) := by
  by_cases hms : m ∈ st.NodesSeen
  · rw [addScope_seen hms]
    exact h
  · rw [addScope_not_seen hms]
    intro hn
    have hn2 : n ∈ m :: st.NodesSeen := hn
    show n ∈ st.TYs
    rcases List.mem_cons.mp hn2 with he | hn3
    · exact absurd he.symm hm
    · exact h hn3

theorem invN_addCompileUnit_other {n m : Nat} {st : DebugInfoFinder} (hm : m ≠ n)
    (h : InvN n st) : InvN n (addCompileUnit st m) := by
  by_cases hms : m ∈ st.NodesSeen
  · rw [addCompileUnit_seen hms]
    exact h
  · rw [addCompileUnit_not_seen hms]
    intro hn
    have hn2 : n ∈ m :: st.NodesSeen := hn
    show n ∈ st.TYs
    rcases List.mem_cons.mp hn2 with he | hn3
    · exact absurd he.symm hm
    · exact h hn3

theorem invN_addGlobalVariable_other {n m : Nat} {st : DebugInfoFinder} (hm : m ≠ n)
    (h : InvN n st) : InvN n (addGlobalVariable st m) := by
  by_cases hms : m ∈ st.NodesSeen
  · rw [addGlobalVariable_seen hms]
    exact h
  · rw [addGlobalVariable_not_seen hms]
    intro hn
    have hn2 : n ∈ m :: st.NodesSeen := hn
    show n ∈ st.TYs
    rcases List.mem_cons.mp hn2 with he | hn3
    · exact absurd he.symm hm
    · exact h hn3

theorem invN_markSeen_other {n m : Nat} {st : DebugInfoFinder} (hm : m ≠ n)
    (h : InvN n st) : InvN n (markSeen st m) := by
  intro hn
  have hn2 : n ∈ m :: st.NodesSeen := hn
  show n ∈ st.TYs
  rcases List.mem_cons.mp hn2 with he | hn3
  · exact absurd he.symm hm
  · exact h hn3

theorem foldProc_pred {h : DebugInfoFinder → Option Nat → Option DebugInfoFinder}
    (P : DebugInfoFinder → Prop) :
    ∀ ds, (∀ s d s', d ∈ ds → h s d = some s' → P s → P s') →
      ∀ st st', foldProc h st ds = some st' → P st → P st'
  | [], _, st, _, hf, hP => by
    rw [foldProc_nil] at hf
    cases hf
    exact hP
  | d :: rest, hstep, st, st', hf, hP => by
    rw [foldProc_cons] at hf
    cases hs : h st d with
    | none => rw [hs] at hf; cases hf
    | some s1 =>
      rw [hs] at hf
      exact foldProc_pred P rest
        (fun s d2 s' hd2 => hstep s d2 s' (List.mem_cons_of_mem _ hd2)) s1 st' hf
        (hstep st d s1 (List.mem_cons_self _ _) hs hP)

theorem processF_invN (g : Graph) (M : List Nat) (n : Nat) (hnp : NoPreempt g M n) :
    ∀ f st c st', st.TypeIdentifierMap = buildTypeIdentifierMap g M →
      argOKN n c → InvN n st → processF g f st c = some st' → InvN n st' := by
  have hctxn : ∀ (st : DebugInfoFinder) (m : Nat) (ctx : Option Nat),
      st.TypeIdentifierMap = buildTypeIdentifierMap g M →
      DIRef.resolve g st.TypeIdentifierMap (getRefField g m 2) = some ctx →
      ctx ≠ some n := by
    intro st m ctx hmap hres he
    subst he
    by_cases hlt : m < g.length
    · rw [hmap] at hres
      exact (hnp.2.2.2 m hlt).1 hres
    · have hg : g.get? m = none := List.get?_eq_none.mpr (Nat.le_of_not_lt hlt)
      rw [getRefField_dangling hg] at hres
      cases hres
  have hdesc2 : ∀ m : Nat, getDescriptorField g (some m) 2 ≠ some n := by
    intro m
    by_cases hlt : m < g.length
    · exact (hnp.2.2.2 m hlt).2.1
    · have hg : g.get? m = none := List.get?_eq_none.mpr (Nat.le_of_not_lt hlt)
      rw [getDescriptorField_dangling hg]
      simp
  have hdesc1 : ∀ v : Option Nat, getDescriptorField g v 1 ≠ some n := by
    intro v
    match v with
    | none => simp [getDescriptorField, getSlotD]
    | some mv =>
      by_cases hlt : mv < g.length
      · exact (hnp.2.2.2 mv hlt).2.2
      · have hg : g.get? mv = none := List.get?_eq_none.mpr (Nat.le_of_not_lt hlt)
        rw [getDescriptorField_dangling hg]
        simp
  intro f
  induction f with
  | zero =>
    intro st c st' hmap hargs hI h
    match c with
    | PCall.ptype none =>
      rw [processF_ptype_none] at h
      cases h
      exact hI
    | PCall.ptype (some m) =>
      by_cases hm : m ∈ st.NodesSeen
      · rw [processF_ptype_seen g _ st m hm] at h
        cases h
        exact hI
      · rw [processF_ptype_zero g st m hm] at h
        cases h
    | PCall.pscope none =>
      rw [processF_pscope_none] at h
      cases h
      exact hI
    | PCall.pscope (some m) =>
      have hne : m ≠ n := fun he => hargs (by rw [he])
      by_cases hm : m ∈ st.NodesSeen
      · rw [processF_pscope_seen g _ st m hm] at h
        cases h
        exact hI
      · cases hl : isLexicalBlock g (some m) with
        | true =>
          rw [processF_pscope_zero_lex g st m hm hl] at h
          cases h
        | false =>
          rw [processF_pscope_nonlex g _ st m hm hl] at h
          cases h
          exact invN_addScope_other hne hI
    | PCall.psub none =>
      rw [processF_psub_none] at h
      cases h
      exact hI
    | PCall.psub (some m) =>
      by_cases hm : m ∈ st.NodesSeen
      · rw [processF_psub_seen g _ st m hm] at h
        cases h
        exact hI
      · rw [processF_psub_zero g st m hm] at h
        cases h
  | succ f ih =>
    intro st c st' hmap hargs hI h
    match c with
    | PCall.ptype none =>
      rw [processF_ptype_none] at h
      cases h
      exact hI
    | PCall.ptype (some m) =>
      by_cases hm : m ∈ st.NodesSeen
      · rw [processF_ptype_seen g _ st m hm] at h
        cases h
        exact hI
      · rw [processF_ptype_succ g f st m hm] at h
        rw [Option.bind_eq_some] at h
        obtain ⟨ctx, hctx, h⟩ := h
        rw [Option.bind_eq_some] at h
        obtain ⟨stm, hstm, hps⟩ := h
        have hIadd : InvN n (addType st m) := by
          by_cases hmn : m = n
          · subst hmn
            exact invN_addType_self hm
          · exact invN_addType_other hmn hI
        have hmapAdd : (addType st m).TypeIdentifierMap =
            buildTypeIdentifierMap g M := by
          rw [addType_map]
          exact hmap
        have hmid : InvN n stm ∧ stm.TypeIdentifierMap = buildTypeIdentifierMap g M := by
          by_cases hc : isCompositeType g (some m) = true
          · rw [if_pos hc] at hstm
            rw [Option.bind_eq_some] at hstm
            obtain ⟨der, _hder, hstm⟩ := hstm
            rw [Option.bind_eq_some] at hstm
            obtain ⟨st2, h2, h3⟩ := hstm
            have hI2 := ih _ (PCall.ptype der) _ hmapAdd trivial hIadd h2
            have hmap2 : st2.TypeIdentifierMap = buildTypeIdentifierMap g M := by
              rw [(processF_good g f _ _ _ h2).map]
              exact hmapAdd
            refine foldProc_pred
              (fun s => InvN n s ∧ s.TypeIdentifierMap = buildTypeIdentifierMap g M)
              _ ?_ _ _ h3 ⟨hI2, hmap2⟩
            intro s d s' _hd hsd hP
            by_cases ht : isType g d = true
            · rw [if_pos ht] at hsd
              exact ⟨ih _ (PCall.ptype d) _ hP.2 trivial hP.1 hsd,
                by rw [(processF_good g f _ _ _ hsd).map]; exact hP.2⟩
            · rw [if_neg ht] at hsd
              cases hsd
              exact hP
          · rw [if_neg hc] at hstm
            by_cases hd : isDerivedType g (some m) = true
            · rw [if_pos hd] at hstm
              rw [Option.bind_eq_some] at hstm
              obtain ⟨der, _hder, hstm⟩ := hstm
              exact ⟨ih _ (PCall.ptype der) _ hmapAdd trivial hIadd hstm,
                by rw [(processF_good g f _ _ _ hstm).map]; exact hmapAdd⟩
            · rw [if_neg hd] at hstm
              cases hstm
              exact ⟨hIadd, hmapAdd⟩
        exact ih _ (PCall.pscope ctx) _ hmid.2 (hctxn st m ctx hmap hctx) hmid.1 hps
    | PCall.pscope none =>
      rw [processF_pscope_none] at h
      cases h
      exact hI
    | PCall.pscope (some m) =>
      have hne : m ≠ n := fun he => hargs (by rw [he])
      by_cases hm : m ∈ st.NodesSeen
      · rw [processF_pscope_seen g _ st m hm] at h
        cases h
        exact hI
      · cases hl : isLexicalBlock g (some m) with
        | true =>
          rw [processF_pscope_succ_lex g f st m hm hl] at h
          exact ih (markSeen st m) (PCall.pscope (getDescriptorField g (some m) 2)) _
            hmap (hdesc2 m) (invN_markSeen_other hne hI) h
        | false =>
          rw [processF_pscope_nonlex g _ st m hm hl] at h
          cases h
          exact invN_addScope_other hne hI
    | PCall.psub none =>
      rw [processF_psub_none] at h
      cases h
      exact hI
    | PCall.psub (some m) =>
      have hne : m ≠ n := fun he => hargs (by rw [he])
      by_cases hm : m ∈ st.NodesSeen
      · rw [processF_psub_seen g _ st m hm] at h
        cases h
        exact hI
      · rw [processF_psub_succ g f st m hm] at h
        rw [Option.bind_eq_some] at h
        obtain ⟨ctx, hctx, h⟩ := h
        rw [Option.bind_eq_some] at h
        obtain ⟨st2, h2, h⟩ := h
        rw [Option.bind_eq_some] at h
        obtain ⟨st3, h3, h4⟩ := h
        have hmapAdd : (addSubprogram st m).TypeIdentifierMap =
            buildTypeIdentifierMap g M := by
          rw [addSubprogram_map]
          exact hmap
        have hI2 := ih _ (PCall.pscope ctx) _ hmapAdd (hctxn st m ctx hmap hctx)
          (invN_addSubprogram_other hne hI) h2
        have hmap2 : st2.TypeIdentifierMap = buildTypeIdentifierMap g M := by
          rw [(processF_good g f _ _ _ h2).map]
          exact hmapAdd
        have hI3 := ih _ (PCall.ptype (getDescriptorField g (some m) 7)) _ hmap2 trivial hI2 h3
        have hmap3 : st3.TypeIdentifierMap = buildTypeIdentifierMap g M := by
          rw [(processF_good g f _ _ _ h3).map]
          exact hmap2
        refine (foldProc_pred
          (fun s => InvN n s ∧ s.TypeIdentifierMap = buildTypeIdentifierMap g M)
          _ ?_ _ _ h4 ⟨hI3, hmap3⟩).1
        intro s v s' _hv hsv hP
        rw [Option.bind_eq_some] at hsv
        obtain ⟨s2, hs2, hs3⟩ := hsv
        have hPI2 := ih _ (PCall.ptype (getDescriptorField g v 5)) _ hP.2 trivial hP.1 hs2
        have hPm2 : s2.TypeIdentifierMap = buildTypeIdentifierMap g M := by
          rw [(processF_good g f _ _ _ hs2).map]
          exact hP.2
        exact ⟨ih _ (PCall.pscope (getDescriptorField g v 1)) _ hPm2 (hdesc1 v) hPI2 hs3,
          by rw [(processF_good g f _ _ _ hs3).map]; exact hPm2⟩

theorem noPreempt_desc2 {g : Graph} {M : List Nat} {n : Nat} (hnp : NoPreempt g M n) :
    ∀ d : Option Nat, getDescriptorField g d 2 ≠ some n := by
  intro d
  match d with
  | none => simp [getDescriptorField, getSlotD]
  | some m =>
    by_cases hlt : m < g.length
    · exact (hnp.2.2.2 m hlt).2.1
    · have hg : g.get? m = none := List.get?_eq_none.mpr (Nat.le_of_not_lt hlt)
      rw [getDescriptorField_dangling hg]
      simp

theorem noPreempt_desc1 {g : Graph} {M : List Nat} {n : Nat} (hnp : NoPreempt g M n) :
    ∀ d : Option Nat, getDescriptorField g d 1 ≠ some n := by
  intro d
  match d with
  | none => simp [getDescriptorField, getSlotD]
  | some m =>
    by_cases hlt : m < g.length
    · exact (hnp.2.2.2 m hlt).2.2
    · have hg : g.get? m = none := List.get?_eq_none.mpr (Nat.le_of_not_lt hlt)
      rw [getDescriptorField_dangling hg]
      simp

theorem processCUF_invN (g : Graph) (M : List Nat) (n : Nat) (hnp : NoPreempt g M n)
    (f : Nat) (st : DebugInfoFinder) (cu : Nat) (st' : DebugInfoFinder)
    (hcu : cu ∈ M) (hmap : st.TypeIdentifierMap = buildTypeIdentifierMap g M)
    (hI : InvN n st) (h : processCUF g f st cu = some st') : InvN n st' := by
  have hcun : cu ≠ n := fun he => hnp.1 (he ▸ hcu)
  have hP0 : InvN n (addCompileUnit st cu) ∧
      (addCompileUnit st cu).TypeIdentifierMap = buildTypeIdentifierMap g M :=
    ⟨invN_addCompileUnit_other hcun hI, by rw [addCompileUnit_map]; exact hmap⟩
  unfold processCUF at h
  cases h1 : foldProc (fun s d => processF g f s (PCall.psub d))
      (addCompileUnit st cu) (arrayElems g (some cu) 9) with
  | none => rw [h1] at h; cases h
  | some st2 =>
    simp only [h1] at h
    have hP2 := foldProc_pred
      (fun s => InvN n s ∧ s.TypeIdentifierMap = buildTypeIdentifierMap g M)
      _ (by
        intro s d s' hd hsd hP
        have hdn : d ≠ some n := fun he => hnp.2.1 cu hcu (he ▸ hd)
        exact ⟨processF_invN g M n hnp f s (PCall.psub d) s' hP.2 hdn hP.1 hsd,
          by rw [(processF_good g f _ _ _ hsd).map]; exact hP.2⟩)
      _ _ h1 hP0
    cases h2 : foldProc
        (fun s d =>
          processF g f (match d with | none => s | some m => addGlobalVariable s m)
            (PCall.ptype (getDescriptorField g d 8)))
        st2 (arrayElems g (some cu) 10) with
    | none => simp only [h2] at h; cases h
    | some st3 =>
      simp only [h2] at h
      have hP3 := foldProc_pred
        (fun s => InvN n s ∧ s.TypeIdentifierMap = buildTypeIdentifierMap g M)
        _ (by
          intro s d s' hd hsd hP
          have hdn : d ≠ some n := fun he => hnp.2.2.1 cu hcu (he ▸ hd)
          match d with
          | none =>
            exact ⟨processF_invN g M n hnp f s
                (PCall.ptype (getDescriptorField g none 8)) s' hP.2 trivial hP.1 hsd,
              by rw [(processF_good g f _ _ _ hsd).map]; exact hP.2⟩
          | some m =>
            have hmn : m ≠ n := fun he => hdn (by rw [he])
            have hmid : InvN n (addGlobalVariable s m) ∧
                (addGlobalVariable s m).TypeIdentifierMap =
                  buildTypeIdentifierMap g M :=
              ⟨invN_addGlobalVariable_other hmn hP.1,
                by rw [addGlobalVariable_map]; exact hP.2⟩
            exact ⟨processF_invN g M n hnp f (addGlobalVariable s m)
                (PCall.ptype (getDescriptorField g (some m) 8)) s' hmid.2 trivial
                hmid.1 hsd,
              by rw [(processF_good g f _ _ _ hsd).map]; exact hmid.2⟩)
        _ _ h2 hP2
      cases h3 : foldProc (fun s d => processF g f s (PCall.ptype d))
          st3 (arrayElems g (some cu) 8) with
      | none => simp only [h3] at h; cases h
      | some st4 =>
        simp only [h3] at h
        have hP4 := foldProc_pred
          (fun s => InvN n s ∧ s.TypeIdentifierMap = buildTypeIdentifierMap g M)
          _ (by
            intro s d s' _hd hsd hP
            exact ⟨processF_invN g M n hnp f s (PCall.ptype d) s' hP.2 trivial hP.1 hsd,
              by rw [(processF_good g f _ _ _ hsd).map]; exact hP.2⟩)
          _ _ h3 hP3
        have hP5 := foldProc_pred
          (fun s => InvN n s ∧ s.TypeIdentifierMap = buildTypeIdentifierMap g M)
          _ (by
            intro s d s' _hd hsd hP
            cases hps : processF g f s (PCall.pscope (getDescriptorField g d 1)) with
            | none => rw [hps] at hsd; cases hsd
            | some s2 =>
              simp only [hps] at hsd
              have hPs2 : InvN n s2 ∧
                  s2.TypeIdentifierMap = buildTypeIdentifierMap g M :=
                ⟨processF_invN g M n hnp f s
                    (PCall.pscope (getDescriptorField g d 1)) s2 hP.2
                    (noPreempt_desc1 hnp d) hP.1 hps,
                  by rw [(processF_good g f _ _ _ hps).map]; exact hP.2⟩
              by_cases ht : isType g (getDescriptorField g d 2) = true
              · rw [if_pos ht] at hsd
                exact ⟨processF_invN g M n hnp f s2
                    (PCall.ptype (getDescriptorField g d 2)) s' hPs2.2 trivial
                    hPs2.1 hsd,
                  by rw [(processF_good g f _ _ _ hsd).map]; exact hPs2.2⟩
              · rw [if_neg ht] at hsd
                by_cases hsk : isScopeKind g (getDescriptorField g d 2) = true
                · rw [if_pos hsk] at hsd
                  exact ⟨processF_invN g M n hnp f s2
                      (PCall.pscope (getDescriptorField g d 2)) s' hPs2.2
                      (noPreempt_desc2 hnp d) hPs2.1 hsd,
                    by rw [(processF_good g f _ _ _ hsd).map]; exact hPs2.2⟩
                · rw [if_neg hsk] at hsd
                  cases hsd
                  exact hPs2)
          _ _ h hP4
        exact hP5.1

theorem processModuleGo_invN (g : Graph) (M : List Nat) (n : Nat)
    (hnp : NoPreempt g M n) (f : Nat) :
    ∀ (Ms : List Nat) (st st' : DebugInfoFinder), (∀ cu ∈ Ms, cu ∈ M) →
      st.TypeIdentifierMap = buildTypeIdentifierMap g M → InvN n st →
      processModuleGo g f st Ms = some st' → InvN n st'
  | [], st, st', _, _, hI, h => by
    cases h
    exact hI
  | cu :: rest, st, st', hsub, hmap, hI, h => by
    unfold processModuleGo at h
    cases h1 : processCUF g f st cu with
    | none => rw [h1] at h; cases h
    | some st1 =>
      simp only [h1] at h
      have hI1 := processCUF_invN g M n hnp f st cu st1
        (hsub cu (List.mem_cons_self _ _)) hmap hI h1
      have hmap1 : st1.TypeIdentifierMap = buildTypeIdentifierMap g M := by
        rw [(processCUF_drv g f st cu st1 h1).dmap]
        exact hmap
      exact processModuleGo_invN g M n hnp f rest st1 st'
        (fun c hc => hsub c (List.mem_cons_of_mem _ hc)) hmap1 hI1 h

theorem retained_reaches (g : Graph) (f : Nat) (n : Nat) :
    ∀ (ds : List (Option Nat)) (st st' : DebugInfoFinder),
      foldProc (fun s d => processF g f s (PCall.ptype d)) st ds = some st' →
      some n ∈ ds → n ∈ st'.NodesSeen
  | [], _, _, _, hmem => by cases hmem
  | d :: rest, st, st', h, hmem => by
    rw [foldProc_cons] at h
    cases hs : processF g f st (PCall.ptype d) with
    | none => rw [hs] at h; cases h
    | some s1 =>
      rw [hs] at h
      rcases List.mem_cons.mp hmem with he | hmem2
      · have hn1 : n ∈ s1.NodesSeen := processF_marks_ptype g f st n s1 (he ▸ hs)
        exact (foldProc_good (fun s d2 s' hsd =>
          processF_good g f s (PCall.ptype d2) s' hsd) _ _ _ h).seen hn1
      · exact retained_reaches g f n rest s1 st' h hmem2

theorem processCUF_reaches (g : Graph) (f : Nat) (n : Nat) (st : DebugInfoFinder)
    (cu : Nat) (st' : DebugInfoFinder) (h : processCUF g f st cu = some st')
    (hmem : some n ∈ arrayElems g (some cu) 8) : n ∈ st'.NodesSeen := by
  unfold processCUF at h
  cases h1 : foldProc (fun s d => processF g f s (PCall.psub d))
      (addCompileUnit st cu) (arrayElems g (some cu) 9) with
  | none => rw [h1] at h; cases h
  | some st2 =>
    simp only [h1] at h
    cases h2 : foldProc
        (fun s d =>
          processF g f (match d with | none => s | some m => addGlobalVariable s m)
            (PCall.ptype (getDescriptorField g d 8)))
        st2 (arrayElems g (some cu) 10) with
    | none => simp only [h2] at h; cases h
    | some st3 =>
      simp only [h2] at h
      cases h3 : foldProc (fun s d => processF g f s (PCall.ptype d))
          st3 (arrayElems g (some cu) 8) with
      | none => simp only [h3] at h; cases h
      | some st4 =>
        simp only [h3] at h
        have hn4 : n ∈ st4.NodesSeen := retained_reaches g f n _ st3 st4 h3 hmem
        exact (foldProc_drv (importStep_drv g f) _ _ _ h).dseen hn4

theorem processModuleGo_reaches (g : Graph) (f : Nat) (n : Nat) (cu : Nat)
    (hmem : some n ∈ arrayElems g (some cu) 8) :
    ∀ (Ms : List Nat) (st st' : DebugInfoFinder),
      processModuleGo g f st Ms = some st' → cu ∈ Ms → n ∈ st'.NodesSeen
  | [], _, _, _, hcu => by cases hcu
  | c :: rest, st, st', h, hcu => by
    unfold processModuleGo at h
    cases h1 : processCUF g f st c with
    | none => rw [h1] at h; cases h
    | some st1 =>
      simp only [h1] at h
      rcases List.mem_cons.mp hcu with he | hcu2
      · have hn1 : n ∈ st1.NodesSeen :=
          processCUF_reaches g f n st c st1 h1 (he ▸ hmem)
        exact (processModuleGo_drv g f rest st1 st' h).dseen hn1
      · exact processModuleGo_reaches g f n cu hmem rest st1 st' h hcu2

theorem dHandled_mono {st st' : DebugInfoFinder} {d : Option Nat}
    (h : dHandled st d) (hs : st.NodesSeen ⊆ st'.NodesSeen) : dHandled st' d :=
  fun m he => hs (h m he)

theorem CUdone_mono {g : Graph} {st st' : DebugInfoFinder} {cu : Nat}
    (h : CUdone g st cu) (hs : st.NodesSeen ⊆ st'.NodesSeen) : CUdone g st' cu := by
  obtain ⟨h1, h2, h3, h4, h5⟩ := h
  refine ⟨hs h1, fun d hd => dHandled_mono (h2 d hd) hs,
    fun d hd => ⟨dHandled_mono ((h3 d hd).1) hs, dHandled_mono ((h3 d hd).2) hs⟩,
    fun d hd => dHandled_mono (h4 d hd) hs,
    fun d hd => ⟨dHandled_mono ((h5 d hd).1) hs,
      fun hcond => dHandled_mono ((h5 d hd).2 hcond) hs⟩⟩

theorem foldProc_seen_sub {h : DebugInfoFinder → Option Nat → Option DebugInfoFinder}
    (hmono : ∀ s d s', h s d = some s' → s.NodesSeen ⊆ s'.NodesSeen) :
    ∀ ds st st', foldProc h st ds = some st' → st.NodesSeen ⊆ st'.NodesSeen
  | [], st, _, hf => by
    rw [foldProc_nil] at hf
    cases hf
    exact fun _x hx => hx
  | d :: rest, st, st', hf => by
    rw [foldProc_cons] at hf
    cases hs : h st d with
    | none => rw [hs] at hf; cases hf
    | some s1 =>
      rw [hs] at hf
      exact fun x hx => foldProc_seen_sub hmono rest s1 st' hf (hmono st d s1 hs hx)

theorem foldProc_each {h : DebugInfoFinder → Option Nat → Option DebugInfoFinder}
    (Q : DebugInfoFinder → Option Nat → Prop)
    (hmarkQ : ∀ s d s', h s d = some s' → Q s' d)
    (hmonoQ : ∀ s s' d, Q s d → s.NodesSeen ⊆ s'.NodesSeen → Q s' d)
    (hmono : ∀ s d s', h s d = some s' → s.NodesSeen ⊆ s'.NodesSeen) :
    ∀ ds st st', foldProc h st ds = some st' → ∀ d ∈ ds, Q st' d
  | [], _, _, _, d, hd => by cases hd
  | d0 :: rest, st, st', hf, d, hd => by
    rw [foldProc_cons] at hf
    cases hs : h st d0 with
    | none => rw [hs] at hf; cases hf
    | some s1 =>
      rw [hs] at hf
      rcases List.mem_cons.mp hd with he | hd2
      · subst he
        exact hmonoQ s1 st' d (hmarkQ st d s1 hs) (foldProc_seen_sub hmono rest s1 st' hf)
      · exact foldProc_each Q hmarkQ hmonoQ hmono rest s1 st' hf d hd2

theorem addGlobalVariable_marks (st : DebugInfoFinder) (m : Nat) :
    m ∈ (addGlobalVariable st m).NodesSeen := by
  by_cases hm : m ∈ st.NodesSeen
  · rw [addGlobalVariable_seen hm]
    exact hm
  · rw [addGlobalVariable_not_seen hm]
    exact List.mem_cons_self m _

theorem processCUF_done (g : Graph) (f : Nat) (st : DebugInfoFinder) (cu : Nat)
    (st' : DebugInfoFinder) (h : processCUF g f st cu = some st') :
    CUdone g st' cu := by
  have hcuAdd : cu ∈ (addCompileUnit st cu).NodesSeen := by
    by_cases hm : cu ∈ st.NodesSeen
    · rw [addCompileUnit_seen hm]
      exact hm
    · rw [addCompileUnit_not_seen hm]
      exact List.mem_cons_self cu _
  unfold processCUF at h
  cases h1 : foldProc (fun s d => processF g f s (PCall.psub d))
      (addCompileUnit st cu) (arrayElems g (some cu) 9) with
  | none => rw [h1] at h; cases h
  | some st2 =>
    simp only [h1] at h
    cases h2 : foldProc
        (fun s d =>
          processF g f (match d with | none => s | some m => addGlobalVariable s m)
            (PCall.ptype (getDescriptorField g d 8)))
        st2 (arrayElems g (some cu) 10) with
    | none => simp only [h2] at h; cases h
    | some st3 =>
      simp only [h2] at h
      cases h3 : foldProc (fun s d => processF g f s (PCall.ptype d))
          st3 (arrayElems g (some cu) 8) with
      | none => simp only [h3] at h; cases h
      | some st4 =>
        simp only [h3] at h
        have hmono1 : ∀ (s : DebugInfoFinder) (d : Option Nat) s',
            processF g f s (PCall.psub d) = some s' →
            s.NodesSeen ⊆ s'.NodesSeen :=
          fun s d s' hsd => (processF_good g f s _ s' hsd).seen
        have hmono3 : ∀ (s : DebugInfoFinder) (d : Option Nat) s',
            processF g f s (PCall.ptype d) = some s' →
            s.NodesSeen ⊆ s'.NodesSeen :=
          fun s d s' hsd => (processF_good g f s _ s' hsd).seen
        have hmono2 : ∀ (s : DebugInfoFinder) (d : Option Nat) s',
            processF g f (match d with | none => s | some m => addGlobalVariable s m)
              (PCall.ptype (getDescriptorField g d 8)) = some s' →
            s.NodesSeen ⊆ s'.NodesSeen := by
          intro s d s' hsd
          exact (gvStep_drv g f s d s' hsd).dseen
        have hmono4 := fun s d s' hsd => (importStep_drv g f s d s' hsd).dseen
        have hS1 : st2.NodesSeen ⊆ st'.NodesSeen := by
          intro x hx
          exact (foldProc_drv (importStep_drv g f) _ _ _ h).dseen
            ((foldProc_seen_sub hmono3 _ _ _ h3)
              ((foldProc_seen_sub hmono2 _ _ _ h2) hx))
        have hS2 : st3.NodesSeen ⊆ st'.NodesSeen := by
          intro x hx
          exact (foldProc_drv (importStep_drv g f) _ _ _ h).dseen
            ((foldProc_seen_sub hmono3 _ _ _ h3) hx)
        have hS3 : st4.NodesSeen ⊆ st'.NodesSeen :=
          (foldProc_drv (importStep_drv g f) _ _ _ h).dseen
        refine ⟨?_, ?_, ?_, ?_, ?_⟩
        · exact hS1 ((foldProc_seen_sub hmono1 _ _ _ h1) hcuAdd)
        · intro d hd
          refine dHandled_mono ?_ hS1
          refine foldProc_each (fun s d => dHandled s d) ?_
            (fun s s' d2 hq hsub => dHandled_mono hq hsub) hmono1 _ _ _ h1 d hd
          intro s d2 s' hsd m he
          subst he
          exact processF_marks_psub g f s m s' hsd
        · intro d hd
          have hq := foldProc_each
            (fun s d => dHandled s d ∧ dHandled s (getDescriptorField g d 8)) ?_
            (fun s s' d2 hq hsub =>
              ⟨dHandled_mono hq.1 hsub, dHandled_mono hq.2 hsub⟩)
            hmono2 _ _ _ h2 d hd
          · exact ⟨dHandled_mono hq.1 hS2, dHandled_mono hq.2 hS2⟩
          · intro s d2 s' hsd
            constructor
            · intro m he
              subst he
              exact (processF_good g f _ _ _ hsd).seen (addGlobalVariable_marks s m)
            · intro m he
              rw [he] at hsd
              exact processF_marks_ptype g f _ m s' hsd
        · intro d hd
          refine dHandled_mono ?_ hS3
          refine foldProc_each (fun s d => dHandled s d) ?_
            (fun s s' d2 hq hsub => dHandled_mono hq hsub) hmono3 _ _ _ h3 d hd
          intro s d2 s' hsd m he
          subst he
          exact processF_marks_ptype g f s m s' hsd
        · intro d hd
          refine foldProc_each
            (fun s d => dHandled s (getDescriptorField g d 1) ∧
              ((isType g (getDescriptorField g d 2) = true ∨
                isScopeKind g (getDescriptorField g d 2) = true) →
                dHandled s (getDescriptorField g d 2))) ?_
            (fun s s' d2 hq hsub =>
              ⟨dHandled_mono hq.1 hsub, fun hc => dHandled_mono (hq.2 hc) hsub⟩)
            hmono4 _ _ _ h d hd
          intro s d2 s' hsd
          cases hps : processF g f s (PCall.pscope (getDescriptorField g d2 1)) with
          | none => rw [hps] at hsd; cases hsd
          | some s2 =>
            simp only [hps] at hsd
            have hh1 : dHandled s2 (getDescriptorField g d2 1) := by
              intro m he
              rw [he] at hps
              exact processF_marks_pscope g f s m s2 hps
            by_cases ht : isType g (getDescriptorField g d2 2) = true
            · rw [if_pos ht] at hsd
              refine ⟨dHandled_mono hh1 (processF_good g f _ _ _ hsd).seen, ?_⟩
              intro _hc m he
              rw [he] at hsd
              exact processF_marks_ptype g f s2 m s' hsd
            · rw [if_neg ht] at hsd
              by_cases hsk : isScopeKind g (getDescriptorField g d2 2) = true
              · rw [if_pos hsk] at hsd
                refine ⟨dHandled_mono hh1 (processF_good g f _ _ _ hsd).seen, ?_⟩
                intro _hc m he
                rw [he] at hsd
                exact processF_marks_pscope g f s2 m s' hsd
              · rw [if_neg hsk] at hsd
                cases hsd
                refine ⟨hh1, ?_⟩
                intro hc
                rcases hc with hc | hc
                · exact absurd hc ht
                · exact absurd hc hsk

theorem foldProc_noop {h : DebugInfoFinder → Option Nat → Option DebugInfoFinder} :
    ∀ ds (st : DebugInfoFinder), (∀ d ∈ ds, h st d = some st) →
      foldProc h st ds = some st
  | [], st, _ => foldProc_nil h st
  | d :: rest, st, hstep => by
    rw [foldProc_cons, hstep d (List.mem_cons_self _ _)]
    exact foldProc_noop rest st (fun d2 hd2 => hstep d2 (List.mem_cons_of_mem _ hd2))

theorem processCUF_replay (g : Graph) (f : Nat) (st : DebugInfoFinder) (cu : Nat)
    (hdone : CUdone g st cu) : processCUF g f st cu = some st := by
  obtain ⟨h1, h2, h3, h4, h5⟩ := hdone
  have e0 : addCompileUnit st cu = st := addCompileUnit_seen h1
  have hf1 : foldProc (fun s d => processF g f s (PCall.psub d))
      st (arrayElems g (some cu) 9) = some st := by
    refine foldProc_noop _ st ?_
    intro d hd
    match d with
    | none => exact processF_psub_none g f st
    | some m => exact processF_psub_seen g f st m (h2 (some m) hd m rfl)
  have hf2 : foldProc
      (fun s d =>
        processF g f (match d with | none => s | some m => addGlobalVariable s m)
          (PCall.ptype (getDescriptorField g d 8)))
      st (arrayElems g (some cu) 10) = some st := by
    refine foldProc_noop _ st ?_
    intro d hd
    match d with
    | none => exact processF_ptype_none g f st
    | some m =>
      have e1 : addGlobalVariable st m = st :=
        addGlobalVariable_seen ((h3 (some m) hd).1 m rfl)
      show processF g f (addGlobalVariable st m)
        (PCall.ptype (getDescriptorField g (some m) 8)) = some st
      rw [e1]
      cases hf8 : getDescriptorField g (some m) 8 with
      | none => exact processF_ptype_none g f st
      | some m8 => exact processF_ptype_seen g f st m8 ((h3 (some m) hd).2 m8 hf8)
  have hf3 : foldProc (fun s d => processF g f s (PCall.ptype d))
      st (arrayElems g (some cu) 8) = some st := by
    refine foldProc_noop _ st ?_
    intro d hd
    match d with
    | none => exact processF_ptype_none g f st
    | some m => exact processF_ptype_seen g f st m (h4 (some m) hd m rfl)
  have hf4 : foldProc
      (fun s d =>
        match processF g f s (PCall.pscope (getDescriptorField g d 1)) with
        | none => none
        | some s2 =>
          if isType g (getDescriptorField g d 2) then
            processF g f s2 (PCall.ptype (getDescriptorField g d 2))
          else if isScopeKind g (getDescriptorField g d 2) then
            processF g f s2 (PCall.pscope (getDescriptorField g d 2))
          else some s2)
      st (arrayElems g (some cu) 11) = some st := by
    refine foldProc_noop _ st ?_
    intro d hd
    have e1 : processF g f st (PCall.pscope (getDescriptorField g d 1)) = some st := by
      cases hf1x : getDescriptorField g d 1 with
      | none => exact processF_pscope_none g f st
      | some m1 => exact processF_pscope_seen g f st m1 ((h5 d hd).1 m1 hf1x)
    simp only [e1]
    by_cases ht : isType g (getDescriptorField g d 2) = true
    · rw [if_pos ht]
      cases hf2x : getDescriptorField g d 2 with
      | none => exact processF_ptype_none g f st
      | some m2 =>
        exact processF_ptype_seen g f st m2 ((h5 d hd).2 (Or.inl ht) m2 hf2x)
    · rw [if_neg ht]
      by_cases hsk : isScopeKind g (getDescriptorField g d 2) = true
      · rw [if_pos hsk]
        cases hf2x : getDescriptorField g d 2 with
        | none => exact processF_pscope_none g f st
        | some m2 =>
          exact processF_pscope_seen g f st m2 ((h5 d hd).2 (Or.inr hsk) m2 hf2x)
      · rw [if_neg hsk]
  unfold processCUF
  rw [e0]
  simp only [hf1, hf2, hf3]
  exact hf4

theorem processModuleGo_alldone (g : Graph) (f : Nat) :
    ∀ (Ms : List Nat) (st st' : DebugInfoFinder),
      processModuleGo g f st Ms = some st' → ∀ cu ∈ Ms, CUdone g st' cu
  | [], _, _, _, cu, hcu => by cases hcu
  | c :: rest, st, st', h, cu, hcu => by
    unfold processModuleGo at h
    cases h1 : processCUF g f st c with
    | none => rw [h1] at h; cases h
    | some st1 =>
      simp only [h1] at h
      rcases List.mem_cons.mp hcu with he | hcu2
      · subst he
        exact CUdone_mono (processCUF_done g f st cu st1 h1)
          (processModuleGo_drv g f rest st1 st' h).dseen
      · exact processModuleGo_alldone g f rest st1 st' h cu hcu2

theorem processModuleGo_replay (g : Graph) (f : Nat) :
    ∀ (Ms : List Nat) (st : DebugInfoFinder), (∀ cu ∈ Ms, CUdone g st cu) →
      processModuleGo g f st Ms = some st
  | [], _, _ => rfl
  | c :: rest, st, hdone => by
    unfold processModuleGo
    rw [processCUF_replay g f st c (hdone c (List.mem_cons_self _ _))]
    exact processModuleGo_replay g f rest st
      (fun cu hcu => hdone cu (List.mem_cons_of_mem _ hcu))

theorem wf_initLike (g : Graph) (m : TIMap) (b : Bool) :
    WFst g { initFinder with TypeIdentifierMap := m, TypeMapInitialized := b } := by
  refine ⟨⟨List.nodup_nil, List.nil_subset _⟩, ⟨List.nodup_nil, List.nil_subset _⟩,
    ⟨List.nodup_nil, List.nil_subset _⟩, ⟨List.nodup_nil, List.nil_subset _⟩,
    ⟨List.nodup_nil, List.nil_subset _⟩, ?_⟩
  intro x hx
  exact absurd hx (List.not_mem_nil x)

/-- C2: `DIRef<T>::resolve` (header lines 237 to 252) resolves a null
reference to the empty descriptor, wraps a direct node with no map lookup,
and fails (assertion) on an identifier absent from the map.  Amended from
the claim: when the identifier is present, the result wraps the mapped node
only provided the mapped node is a type; a mapped non-type node trips the
second assertion (`isType`) and is likewise a fatal failure, not a wrapped
result. -/
theorem claim_c2 (g : Graph) (m : TIMap) :
    DIRef.resolve g m RefVal.null = some none ∧
    (∀ i, DIRef.resolve g m (RefVal.node i) = some (some i)) ∧
    (∀ s, lookupTIM m s = none → DIRef.resolve g m (RefVal.str s) = none) ∧
    (∀ s t, lookupTIM m s = some t → isType g (some t) = true →
      DIRef.resolve g m (RefVal.str s) = some (some t)) ∧
    (∀ s t, lookupTIM m s = some t → isType g (some t) = false →
      DIRef.resolve g m (RefVal.str s) = none) := by
  refine ⟨rfl, fun i => rfl, ?_, ?_, ?_⟩
  · intro s h
    simp [DIRef.resolve, h]
  · intro s t h ht
    simp [DIRef.resolve, h, ht]
  · intro s t h ht
    simp [DIRef.resolve, h, ht]

/-- C2 counterexample: the identifier is present in the map, yet `resolve`
does not return the wrapped mapped node: the mapped node is not a type, so
the second assertion in the header fires (modelled as the failure result),
refuting the claim that presence in the map suffices for a wrapped
result. -/
theorem claim_c2_counterexample :
    lookupTIM nonTypeMap "T" = some 0 ∧
    DIRef.resolve nonTypeGraph nonTypeMap (RefVal.str "T") = none ∧
    DIRef.resolve nonTypeGraph nonTypeMap (RefVal.str "T") ≠ some (some 0) :=
  ⟨by decide, by decide, by decide⟩

/-- C2 witness: the amended resolution behaviour at concrete inputs: a
null reference, a direct reference, a missing identifier, a mapped type
node, and a mapped non-type node. -/
theorem claim_c2_witness :
    DIRef.resolve cyclicGraph [("S", 2)] RefVal.null = some none ∧
    DIRef.resolve cyclicGraph [("S", 2)] (RefVal.node 4) = some (some 4) ∧
    (lookupTIM [("S", 2)] "X" = none ∧
      DIRef.resolve cyclicGraph [("S", 2)] (RefVal.str "X") = none) ∧
    (lookupTIM [("S", 2)] "S" = some 2 ∧ isType cyclicGraph (some 2) = true ∧
      DIRef.resolve cyclicGraph [("S", 2)] (RefVal.str "S") = some (some 2)) ∧
    (lookupTIM nonTypeMap "T" = some 0 ∧ isType nonTypeGraph (some 0) = false ∧
      DIRef.resolve nonTypeGraph nonTypeMap (RefVal.str "T") = none) := by
  refine ⟨(claim_c2 cyclicGraph [("S", 2)]).1,
    (claim_c2 cyclicGraph [("S", 2)]).2.1 4,
    ⟨by decide, (claim_c2 cyclicGraph [("S", 2)]).2.2.1 "X" (by decide)⟩,
    ⟨by decide, by decide,
      (claim_c2 cyclicGraph [("S", 2)]).2.2.2.1 "S" 2 (by decide) (by decide)⟩,
    ⟨by decide, by decide,
      (claim_c2 nonTypeGraph nonTypeMap).2.2.2.2 "T" 0 (by decide) (by decide)⟩⟩

/-- C5 (amended): after `processModule` from the initial state, the
compile-unit sequence is a duplicate-free subsequence of the declared
compile-unit list, in declared (first-discovery) order, never reordered; a
declared compile unit that was already visited earlier in the traversal
(for instance reached as the context scope of a subprogram) is omitted
rather than re-added. -/
theorem claim_c5 (g : Graph) (M : List Nat) (st' : DebugInfoFinder)
    (hrun : DebugInfoFinder.processModule g M initFinder = some st') :
    List.Sublist st'.CUs M ∧ st'.CUs.Nodup := by
  unfold DebugInfoFinder.processModule at hrun
  obtain ⟨L, hcus, hsub⟩ := processModuleGo_cus g (g.length + 1) M _ st' hrun
  constructor
  · have e : st'.CUs = L := hcus
    rw [e]
    exact hsub
  · exact ((processModuleGo_drv g (g.length + 1) M _ st' hrun).dwf
      (wf_initLike g (buildTypeIdentifierMap g M) true)).1.1

/-- C5 counterexample: in `preemptGraph`, compile unit 1 is reached as the
context scope of a subprogram of compile unit 0 before the driver reaches
it in the declared list, so it is dedup-added to the scope sequence and
then skipped by `addCompileUnit`: the final compile-unit sequence is `[0]`,
not the declared list with duplicates removed (`[0, 1]`), refuting the
claim that the sequence is exactly the deduplicated declared list. -/
theorem claim_c5_counterexample :
    ∃ st', DebugInfoFinder.processModule preemptGraph preemptModule initFinder =
        some st' ∧
      st'.CUs ≠ dedupFirst preemptModule :=
  ⟨preemptResult, by decide, by decide⟩

/-- C5 witness: the amended statement at the concrete preempting module. -/
theorem claim_c5_witness :
    DebugInfoFinder.processModule preemptGraph preemptModule initFinder =
      some preemptResult ∧
    List.Sublist preemptResult.CUs preemptModule ∧ preemptResult.CUs.Nodup := by
  have h : DebugInfoFinder.processModule preemptGraph preemptModule initFinder =
      some preemptResult := by decide
  exact ⟨h, claim_c5 preemptGraph preemptModule preemptResult h⟩

/-- C7: `reset` clears the five sequences (all five counts become zero),
the visited-set and the map-built flag, returning the Finder to the
default-constructed initial state. -/
theorem claim_c7 (st : DebugInfoFinder) :
    DebugInfoFinder.reset st = initFinder ∧
    (DebugInfoFinder.reset st).compile_unit_count = 0 ∧
    (DebugInfoFinder.reset st).subprogram_count = 0 ∧
    (DebugInfoFinder.reset st).global_variable_count = 0 ∧
    (DebugInfoFinder.reset st).type_count = 0 ∧
    (DebugInfoFinder.reset st).scope_count = 0 ∧
    (DebugInfoFinder.reset st).NodesSeen = [] ∧
    (DebugInfoFinder.reset st).TypeMapInitialized = false :=
  ⟨rfl, rfl, rfl, rfl, rfl, rfl, rfl, rfl⟩

/-- C9: `DIVariable::getLineNumber` (header line 615) recovers the low 24
bits of the packed 32-bit slot 4 via `(L << 8) >> 8` on a 32-bit unsigned,
`getArgNumber` the high 8 bits via `L >> 24`, and together they decompose
the packed value: line + 2^24 * argument = L. -/
theorem claim_c9 (g : Graph) (n : Nat) (slots : List Slot) (L : Nat)
    (hg : g.get? n = some slots) (hslot : slots.get? 4 = some (Slot.num L))
    (hL : L < 4294967296) :
    DIVariable.getLineNumber g (some n) = L % 16777216 ∧
    DIVariable.getArgNumber g (some n) = L / 16777216 ∧
    DIVariable.getLineNumber g (some n) +
      16777216 * DIVariable.getArgNumber g (some n) = L := by
  have hU : getUnsignedField g (some n) 4 = L := by
    rw [List.get?_eq_getElem?] at hg hslot
    simp [getUnsignedField, getUInt64Field, getSlotD, getSlot, hg, hslot,
      Nat.mod_eq_of_lt hL]
  unfold DIVariable.getLineNumber DIVariable.getArgNumber
  rw [hU]
  refine ⟨?_, rfl, ?_⟩ <;> omega

/-- C9 witness: slot 4 of the variable node packs line 10 and argument
number 1 as 1 * 2^24 + 10. -/
theorem claim_c9_witness :
    varGraph.get? 0 = some [Slot.num 0, Slot.num 0, Slot.num 0, Slot.num 0,
      Slot.num 16777226] ∧
    DIVariable.getLineNumber varGraph (some 0) = 16777226 % 16777216 ∧
    DIVariable.getArgNumber varGraph (some 0) = 16777226 / 16777216 ∧
    DIVariable.getLineNumber varGraph (some 0) +
      16777216 * DIVariable.getArgNumber varGraph (some 0) = 16777226 := by
  have h := claim_c9 varGraph 0
    [Slot.num 0, Slot.num 0, Slot.num 0, Slot.num 0, Slot.num 16777226]
    16777226 (by decide) (by decide) (by decide)
  exact ⟨by decide, h.1, h.2.1, h.2.2⟩

/-- C10: `DIRef<T>::getName` (header lines 254 to 263) needs no identifier
map: the empty string for a null reference, the wrapped node's own name for
a direct node, and the identifier string itself for an identifier-mode
reference; in particular it succeeds on an identifier that `resolve` fails
on. -/
theorem claim_c10 (g : Graph) :
    DIRef.getName g RefVal.null = "" ∧
    (∀ i, DIRef.getName g (RefVal.node i) = DIType.getName g (some i)) ∧
    (∀ s, DIRef.getName g (RefVal.str s) = s) ∧
    (∀ (m : TIMap) (s : String), lookupTIM m s = none →
      DIRef.resolve g m (RefVal.str s) = none ∧
      DIRef.getName g (RefVal.str s) = s) := by
  refine ⟨rfl, fun i => rfl, fun s => rfl, ?_⟩
  intro m s h
  exact ⟨by simp [DIRef.resolve, h], rfl⟩

/-- C10 witness: the unresolvable identifier still yields its name. -/
theorem claim_c10_witness :
    DIRef.getName nonTypeGraph RefVal.null = "" ∧
    DIRef.getName nonTypeGraph (RefVal.node 0) = DIType.getName nonTypeGraph (some 0) ∧
    DIRef.getName nonTypeGraph (RefVal.str "Q") = "Q" ∧
    lookupTIM [] "Q" = none ∧
    DIRef.resolve nonTypeGraph [] (RefVal.str "Q") = none := by
  refine ⟨(claim_c10 nonTypeGraph).1, (claim_c10 nonTypeGraph).2.1 0,
    (claim_c10 nonTypeGraph).2.2.1 "Q", by decide,
    ((claim_c10 nonTypeGraph).2.2.2 [] "Q" (by decide)).1⟩

/-- C1: for a module whose graph contains a self-referential composite type
listed among a compile unit's retained types (and reached by the traversal
as a type, per `NoPreempt`), `processModule` terminates — the canonical
fuel `graph size + 1` suffices, which is what the pre-order visited-set
marking guarantees — and the composite occurs exactly once in the type
sequence `TYs`. -/
theorem claim_c1 (g : Graph) (M : List Nat) (n : Nat)
    (hid : IdentsOK g (buildTypeIdentifierMap g M))
    (hself : SelfRefComposite g n)
    (hret : ∃ cu ∈ M, some n ∈ arrayElems g (some cu) 8)
    (hnp : NoPreempt g M n) :
    ∃ st', DebugInfoFinder.processModule g M initFinder = some st' ∧
      st'.TYs.count n = 1 := by
  have _hcomp := hself.1
  have hunfold : DebugInfoFinder.processModule g M initFinder =
      processModuleGo g (g.length + 1)
        { initFinder with TypeIdentifierMap := buildTypeIdentifierMap g M,
                          TypeMapInitialized := true } M := rfl
  obtain ⟨st', hGo⟩ := processModuleGo_ok g (g.length + 1)
    (buildTypeIdentifierMap g M) hid (Nat.lt_succ_self _) M
    { initFinder with TypeIdentifierMap := buildTypeIdentifierMap g M,
                      TypeMapInitialized := true } rfl
  refine ⟨st', by rw [hunfold]; exact hGo, ?_⟩
  obtain ⟨cu, hcuM, hmem⟩ := hret
  have hseenN : n ∈ st'.NodesSeen :=
    processModuleGo_reaches g (g.length + 1) n cu hmem M _ st' hGo hcuM
  have hinv : InvN n st' :=
    processModuleGo_invN g M n hnp (g.length + 1) M _ st'
      (fun _c hc => hc) rfl (fun hx => absurd hx (List.not_mem_nil n)) hGo
  have hwf : WFst g st' :=
    (processModuleGo_drv g (g.length + 1) M _ st' hGo).dwf
      (wf_initLike g (buildTypeIdentifierMap g M) true)
  exact List.count_eq_one_of_mem hwf.2.2.2.1.1 (hinv hseenN)

/-- C1 witness: in `cyclicGraph`, struct 2 is a self-referential composite
(2 has member pointer 4, whose derived-from slot points back to 2), it is
retained by compile unit 0, and the traversal terminates with the struct
occurring exactly once in the type sequence. -/
theorem claim_c1_witness :
    IdentsOK cyclicGraph (buildTypeIdentifierMap cyclicGraph cyclicModule) ∧
    SelfRefComposite cyclicGraph 2 ∧
    (∃ cu ∈ cyclicModule, some 2 ∈ arrayElems cyclicGraph (some cu) 8) ∧
    NoPreempt cyclicGraph cyclicModule 2 ∧
    (∃ st', DebugInfoFinder.processModule cyclicGraph cyclicModule initFinder =
        some st' ∧ st'.TYs.count 2 = 1) := by
  have s1 : typeStep cyclicGraph 2 4 := Or.inl (by decide)
  have s2 : typeStep cyclicGraph 4 2 := Or.inr (by decide)
  have hself : SelfRefComposite cyclicGraph 2 :=
    ⟨by decide, Relation.TransGen.head s1 (Relation.TransGen.single s2)⟩
  refine ⟨by decide, hself, ⟨0, by decide, by decide⟩, by decide, ?_⟩
  exact claim_c1 cyclicGraph cyclicModule 2 (by decide) hself
    ⟨0, by decide, by decide⟩ (by decide)

/-- C3: a second `processModule` on the same module, with no intervening
`reset`, is a no-op: every node it would visit is already in the
visited-set, so all five sequences and all five counts are unchanged. -/
theorem claim_c3 (g : Graph) (M : List Nat) (st0 st1 : DebugInfoFinder)
    (hrun : DebugInfoFinder.processModule g M st0 = some st1) :
    ∃ st2, DebugInfoFinder.processModule g M st1 = some st2 ∧
      st2.CUs = st1.CUs ∧ st2.SPs = st1.SPs ∧ st2.GVs = st1.GVs ∧
      st2.TYs = st1.TYs ∧ st2.Scopes = st1.Scopes ∧
      st2.compile_unit_count = st1.compile_unit_count ∧
      st2.subprogram_count = st1.subprogram_count ∧
      st2.global_variable_count = st1.global_variable_count ∧
      st2.type_count = st1.type_count ∧
      st2.scope_count = st1.scope_count := by
  unfold DebugInfoFinder.processModule at hrun
  have hflag : st1.TypeMapInitialized = true := by
    have hd := (processModuleGo_drv g (g.length + 1) M _ st1 hrun).dflag
    by_cases hb : st0.TypeMapInitialized = true
    · rw [hd, if_pos hb]
      exact hb
    · rw [hd, if_neg hb]
  have hdone := processModuleGo_alldone g (g.length + 1) M _ st1 hrun
  have hsecond : DebugInfoFinder.processModule g M st1 = some st1 := by
    unfold DebugInfoFinder.processModule
    rw [if_pos hflag]
    exact processModuleGo_replay g (g.length + 1) M st1 hdone
  exact ⟨st1, hsecond, rfl, rfl, rfl, rfl, rfl, rfl, rfl, rfl, rfl, rfl⟩

/-- C3 witness: the empty module processed once from the initial state,
then re-processed without a reset: nothing changes. -/
theorem claim_c3_witness :
    DebugInfoFinder.processModule [] [] initFinder = some emptyRunResult ∧
    (∃ st2, DebugInfoFinder.processModule [] [] emptyRunResult = some st2 ∧
      st2.CUs = emptyRunResult.CUs ∧ st2.SPs = emptyRunResult.SPs ∧
      st2.GVs = emptyRunResult.GVs ∧ st2.TYs = emptyRunResult.TYs ∧
      st2.Scopes = emptyRunResult.Scopes ∧
      st2.compile_unit_count = emptyRunResult.compile_unit_count ∧
      st2.subprogram_count = emptyRunResult.subprogram_count ∧
      st2.global_variable_count = emptyRunResult.global_variable_count ∧
      st2.type_count = emptyRunResult.type_count ∧
      st2.scope_count = emptyRunResult.scope_count) :=
  ⟨by decide, claim_c3 [] [] initFinder emptyRunResult (by decide)⟩

/-- C4: `reset` then `processModule` is deterministic in the input program:
two runs from freshly reset Finder states (whatever the states were before
the reset) produce identical results, in particular the same five
sequences with the same elements in the same order. -/
theorem claim_c4 (g : Graph) (M : List Nat) (stA stB rA rB : DebugInfoFinder)
    (hA : DebugInfoFinder.processModule g M (DebugInfoFinder.reset stA) = some rA)
    (hB : DebugInfoFinder.processModule g M (DebugInfoFinder.reset stB) = some rB) :
    rA.CUs = rB.CUs ∧ rA.SPs = rB.SPs ∧ rA.GVs = rB.GVs ∧
    rA.TYs = rB.TYs ∧ rA.Scopes = rB.Scopes ∧ rA = rB := by
  have e : DebugInfoFinder.reset stA = DebugInfoFinder.reset stB := rfl
  rw [e] at hA
  rw [hA] at hB
  injection hB with hB
  subst hB
  exact ⟨rfl, rfl, rfl, rfl, rfl, rfl⟩

/-- C4 witness: two runs of the lexical-chain module from a fresh initial
state and from a reset dirty state agree. -/
theorem claim_c4_witness :
    DebugInfoFinder.processModule lexGraph lexModule
      (DebugInfoFinder.reset initFinder) = some lexResult ∧
    DebugInfoFinder.processModule lexGraph lexModule
      (DebugInfoFinder.reset preemptResult) = some lexResult ∧
    (lexResult.CUs = lexResult.CUs ∧ lexResult.SPs = lexResult.SPs ∧
      lexResult.GVs = lexResult.GVs ∧ lexResult.TYs = lexResult.TYs ∧
      lexResult.Scopes = lexResult.Scopes ∧ lexResult = lexResult) :=
  ⟨by decide, by decide,
    claim_c4 lexGraph lexModule initFinder preemptResult lexResult lexResult
      (by decide) (by decide)⟩

/-- C6: `processScope` on a null scope leaves the Finder unchanged; on an
unvisited lexical block (with or without a file change, both carry the
lexical-block tag) it never adds the block itself but marks it and follows
the enclosing-scope chain (slot 2); consequently, after `processModule`
from the initial state the scope sequence contains no lexical-block
nodes. -/
theorem claim_c6 :
    (∀ (g : Graph) (f : Nat) (st : DebugInfoFinder),
      processScopeF g f st none = some st) ∧
    (∀ (g : Graph) (f : Nat) (st : DebugInfoFinder) (s : Nat),
      isLexicalBlock g (some s) = true → s ∉ st.NodesSeen →
      processScopeF g (f + 1) st (some s) =
        processScopeF g f (markSeen st s) (getDescriptorField g (some s) 2)) ∧
    (∀ (g : Graph) (M : List Nat) (st' : DebugInfoFinder),
      DebugInfoFinder.processModule g M initFinder = some st' →
      ∀ x ∈ st'.Scopes, isLexicalBlock g (some x) = false) := by
  refine ⟨fun g f st => processF_pscope_none g f st, ?_, ?_⟩
  · intro g f st s hl hs
    exact processF_pscope_succ_lex g f st s hs hl
  · intro g M st' h
    unfold DebugInfoFinder.processModule at h
    exact ((processModuleGo_drv g (g.length + 1) M _ st' h).dwf
      (wf_initLike g (buildTypeIdentifierMap g M) true)).2.2.2.2.2

/-- C6 witness: in `lexGraph` the subprogram's context is lexical block 3
with enclosing namespace 4; processing the null scope is a no-op, the
lexical block is chased through its chain rather than added, and the final
scope sequence `[4]` holds no lexical block. -/
theorem claim_c6_witness :
    processScopeF lexGraph 1 initFinder none = some initFinder ∧
    isLexicalBlock lexGraph (some 3) = true ∧
    (3 : Nat) ∉ initFinder.NodesSeen ∧
    processScopeF lexGraph (0 + 1) initFinder (some 3) =
      processScopeF lexGraph 0 (markSeen initFinder 3)
        (getDescriptorField lexGraph (some 3) 2) ∧
    DebugInfoFinder.processModule lexGraph lexModule initFinder = some lexResult ∧
    (∀ x ∈ lexResult.Scopes, isLexicalBlock lexGraph (some x) = false) := by
  have hrun : DebugInfoFinder.processModule lexGraph lexModule initFinder =
      some lexResult := by decide
  exact ⟨claim_c6.1 lexGraph 1 initFinder, by decide, by decide,
    claim_c6.2.1 lexGraph 0 initFinder 3 (by decide) (by decide), hrun,
    claim_c6.2.2 lexGraph lexModule lexResult hrun⟩

/-- C8: malformed or absent input is recovered locally: a null descriptor,
a missing slot or a wrong-kind slot makes the accessors return the
empty/default view; each traversal operation (`processType`,
`processScope`, `processSubprogram`, `processDeclare`, `processValue`) on a
null argument returns the state unchanged; a wrong-tag attachment to
`processDeclare`/`processValue` is treated as absent; and a node with no
usable slots (a dangling reference) is processed without any failure, the
traversal simply continuing. -/
theorem claim_c8 :
    (∀ (g : Graph) (k : Nat), getStringField g none k = "" ∧
      getUnsignedField g none k = 0 ∧ getDescriptorField g none k = none) ∧
    (∀ (g : Graph) (n k : Nat), getSlot g n k = none →
      getStringField g (some n) k = "" ∧ getUnsignedField g (some n) k = 0 ∧
      getDescriptorField g (some n) k = none) ∧
    (∀ (g : Graph) (n k v : Nat), getSlot g n k = some (Slot.num v) →
      getStringField g (some n) k = "" ∧ getDescriptorField g (some n) k = none ∧
      getRefField g n k = RefVal.null) ∧
    (∀ (g : Graph) (f : Nat) (st : DebugInfoFinder),
      processTypeF g f st none = some st ∧ processScopeF g f st none = some st ∧
      processSubprogramF g f st none = some st ∧
      processDeclareF g f st none = some st ∧ processValueF g f st none = some st) ∧
    (∀ (g : Graph) (f : Nat) (st : DebugInfoFinder) (v : Nat),
      isVariable g (some v) = false →
      processDeclareF g f st (some v) = some st ∧
      processValueF g f st (some v) = some st) ∧
    (∀ (g : Graph) (f : Nat) (st : DebugInfoFinder) (n : Nat),
      g.get? n = none → n ∉ st.NodesSeen →
      processTypeF g (f + 1) st (some n) = some (addType st n)) := by
  refine ⟨fun g k => ⟨rfl, rfl, rfl⟩, ?_, ?_, ?_, ?_, ?_⟩
  · intro g n k h
    refine ⟨?_, ?_, ?_⟩ <;> simp [getStringField, getUnsignedField, getUInt64Field,
      getDescriptorField, getSlotD, h]
  · intro g n k v h
    refine ⟨?_, ?_, ?_⟩ <;> simp [getStringField, getDescriptorField, getRefField,
      getSlotD, h]
  · intro g f st
    exact ⟨processF_ptype_none g f st, processF_pscope_none g f st,
      processF_psub_none g f st, rfl, rfl⟩
  · intro g f st v h
    constructor <;> simp [processValueF, processDeclareF, h]
  · intro g f st n hg hn
    show processF g (f + 1) st (PCall.ptype (some n)) = some (addType st n)
    rw [processF_ptype_succ g f st n hn, getRefField_dangling hg,
      getRefField_dangling hg]
    show (DIRef.resolve g st.TypeIdentifierMap RefVal.null).bind _ = _
    rw [show DIRef.resolve g st.TypeIdentifierMap RefVal.null = some none from rfl,
      Option.some_bind, if_neg (by rw [isCompositeType_dangling hg]; simp),
      if_neg (by rw [isDerivedType_dangling hg]; simp), Option.some_bind]
    exact processF_pscope_none g f (addType st n)

/-- C8 witness: the accessor and traversal recovery cases at concrete
malformed inputs on `varGraph` (missing slot 9, wrong-kind slot 0, a
non-variable node handed to `processDeclare`, and the dangling node 7). -/
theorem claim_c8_witness :
    (getStringField varGraph none 3 = "" ∧ getUnsignedField varGraph none 3 = 0 ∧
      getDescriptorField varGraph none 3 = none) ∧
    (getSlot varGraph 0 9 = none ∧ getStringField varGraph (some 0) 9 = "" ∧
      getUnsignedField varGraph (some 0) 9 = 0 ∧
      getDescriptorField varGraph (some 0) 9 = none) ∧
    (getSlot varGraph 0 0 = some (Slot.num 0) ∧
      getStringField varGraph (some 0) 0 = "" ∧
      getDescriptorField varGraph (some 0) 0 = none ∧
      getRefField varGraph 0 0 = RefVal.null) ∧
    (processTypeF varGraph 3 initFinder none = some initFinder ∧
      processDeclareF varGraph 3 initFinder none = some initFinder) ∧
    (isVariable varGraph (some 0) = false ∧
      processDeclareF varGraph 3 initFinder (some 0) = some initFinder) ∧
    (varGraph.get? 7 = none ∧ (7 : Nat) ∉ initFinder.NodesSeen ∧
      processTypeF varGraph (2 + 1) initFinder (some 7) =
        some (addType initFinder 7)) := by
  refine ⟨claim_c8.1 varGraph 3, ?_, ?_, ?_, ?_, ?_⟩
  · exact ⟨by decide,
      (claim_c8.2.1 varGraph 0 9 (by decide)).1,
      (claim_c8.2.1 varGraph 0 9 (by decide)).2.1,
      (claim_c8.2.1 varGraph 0 9 (by decide)).2.2⟩
  · exact ⟨by decide,
      (claim_c8.2.2.1 varGraph 0 0 0 (by decide)).1,
      (claim_c8.2.2.1 varGraph 0 0 0 (by decide)).2.1,
      (claim_c8.2.2.1 varGraph 0 0 0 (by decide)).2.2⟩
  · exact ⟨(claim_c8.2.2.2.1 varGraph 3 initFinder).1,
      (claim_c8.2.2.2.1 varGraph 3 initFinder).2.2.2.1⟩
  · exact ⟨by decide, (claim_c8.2.2.2.2.1 varGraph 3 initFinder 0 (by decide)).1⟩
  · exact ⟨by decide, by decide,
      claim_c8.2.2.2.2.2 varGraph 2 initFinder 7 (by decide) (by decide)⟩
